import Mathlib

/-!
# Span lifecycle of the tracing client transport (`client/opentelemetry.go`)

A shallow embedding of `openTelemetryTransport.Submit` and of the span
construction function `createOpenTelemetryClientSpan`.

* Every call the code makes on the tracing library (start a span, set a tag,
  log fields, end a span, inject a span context) is recorded, in order, in the
  `events` of a `TraceWorld`, which is passed explicitly.
* A `World` holds the caller's state (of a caller-chosen type `σ`), the tracing
  world, and the `span` variables of the activations of `Submit`: each call on
  a non-nil context declares a new variable, which the two closures it creates
  capture by reference and which outlives the call with them.
* The parameter-writer and response-reader of an operation are arbitrary
  transformers of the `World`: they may trace, and they may be the closures an
  earlier `Submit` left on the operation.
* `Submit` replaces `op.Params` and `op.Reader` in place and does not restore
  them, so it returns the operation as the caller holds it afterwards.
* The inner transport is a decision tree (`Script`) over the two hooks of the
  operation it is given: it may invoke them any number of times, in any order,
  with any arguments, and branch on what they return.
-/

namespace Client

/-! ## Values of the surrounding libraries -/

/-- Go's `http.Header`, a multimap from field names to values. -/
abbrev Header := List (String × List String)

/-- A non-nil Go `error`. A possibly-nil error is an `Option GoError`. -/
structure GoError where
  msg : String
deriving DecidableEq, Repr

/-- Values of Go's `interface{}` as produced by response readers. -/
inductive Any
  | null
  | text (s : String)
  | num (n : Int)
deriving DecidableEq, Repr

/-- The carrier formats of `opentracing` (`opentracing.HTTPHeaders` and its siblings). -/
inductive BuiltinFormat
  | Binary
  | TextMap
  | HTTPHeaders
deriving DecidableEq, Repr

/-- The propagation context of a span. -/
structure SpanContext where
  spanID : Nat
deriving DecidableEq, Repr

/-- A tracer. `Inject` is the tracer's own way of writing a span context into
a header carrier; its error result is discarded by the code and is not modelled. -/
structure Tracer where
  name : Nat
  Inject : SpanContext → BuiltinFormat → Header → Header

/-- A non-nil span handle. A possibly-nil span is an `Option Span`. -/
structure Span where
  id : Nat
  tracer : Tracer

/-- The method `span.Tracer()`. -/
def Span.Tracer (s : Span) : Tracer := s.tracer

/-- The method `span.Context()`. -/
def Span.Context (s : Span) : SpanContext := ⟨s.id⟩

/-- A non-nil `context.Context`; only the active span it may carry matters here. -/
structure Context where
  span : Option Span

/-- Options accepted when a span is started. -/
inductive StartSpanOption
  | Tag (key : String) (value : String)
  | StartTime (t : Nat)
deriving DecidableEq, Repr

/-- The option `ext.SpanKindRPCClient`: the tag `span.kind = client`. -/
def ext.SpanKindRPCClient : StartSpanOption := StartSpanOption.Tag "span.kind" "client"

/-- Values a tag can take in this file. -/
inductive TagValue
  | str (s : String)
  | bool (b : Bool)
  | uint16 (n : Nat)
deriving DecidableEq, Repr

/-- Structured log fields. -/
inductive LogField
  | Error (err : GoError)
  | String (key : String) (value : String)
deriving DecidableEq, Repr

/-- The field constructor `log.Error(err)`. -/
def log.Error (err : GoError) : LogField := LogField.Error err

/-- One call on the tracing library, as observed from outside. -/
inductive Event
  | start (parent : Option Nat) (tracer : Nat) (operationName : String)
      (opts : List StartSpanOption) (span : Nat)
  | setTag (span : Nat) (key : String) (value : TagValue)
  | logFields (span : Nat) (fields : List LogField)
  | finish (span : Nat)
  | inject (tracer : Nat) (sc : SpanContext) (format : BuiltinFormat) (carrier : Header)
deriving DecidableEq, Repr

/-- The tracing side of the world: the calls made so far and the identifier
the next started span will get. -/
structure TraceWorld where
  events : List Event
  next : Nat
deriving DecidableEq, Repr

/-- Appends one observed call. -/
def TraceWorld.emit (w : TraceWorld) (e : Event) : TraceWorld :=
  { w with events := w.events ++ [e] }

/-- The method `span.SetTag(key, value)`. -/
def Span.SetTag (s : Span) (key : String) (value : TagValue) (w : TraceWorld) : TraceWorld :=
  w.emit (Event.setTag s.id key value)

/-- The method `span.LogFields(fields...)`. -/
def Span.LogFields (s : Span) (fields : List LogField) (w : TraceWorld) : TraceWorld :=
  w.emit (Event.logFields s.id fields)

/-- The method `span.End()`. -/
def Span.End (s : Span) (w : TraceWorld) : TraceWorld :=
  w.emit (Event.finish s.id)

/-- The tag setter `ext.Component.Set`. -/
def ext.Component.Set (s : Span) (v : String) (w : TraceWorld) : TraceWorld :=
  s.SetTag "component" (TagValue.str v) w

/-- The tag setter `ext.PeerHostname.Set`. -/
def ext.PeerHostname.Set (s : Span) (v : String) (w : TraceWorld) : TraceWorld :=
  s.SetTag "peer.hostname" (TagValue.str v) w

/-- The tag setter `ext.HTTPMethod.Set`. -/
def ext.HTTPMethod.Set (s : Span) (v : String) (w : TraceWorld) : TraceWorld :=
  s.SetTag "http.method" (TagValue.str v) w

/-- The tag setter `ext.HTTPStatusCode.Set`, whose value is a `uint16`. -/
def ext.HTTPStatusCode.Set (s : Span) (v : Nat) (w : TraceWorld) : TraceWorld :=
  s.SetTag "http.status_code" (TagValue.uint16 v) w

/-- The tag setter `ext.Error.Set`. -/
def ext.Error.Set (s : Span) (v : Bool) (w : TraceWorld) : TraceWorld :=
  s.SetTag "error" (TagValue.bool v) w

/-- Go's conversion `uint16(code)` of an `int`: the low sixteen bits. -/
def uint16 (code : Int) : Nat := (code % 65536).toNat

/-- Modelled from the spec: the lookup `SpanFromContext(ctx) -> Span|empty` of the
tracer capability, which the `opentracing` package provides: the span carried by
the context, or nothing. A nil context carries none. -/
def opentracing.SpanFromContext (ctx : Option Context) : Option Span :=
  match ctx with
  | some c => c.span
  | none => none

/-- The tracer of the no-op span: its `Inject` writes nothing. -/
def trace.noopTracer : Tracer := { name := 0, Inject := fun _ _ header => header }

/-- The no-op span instance of `go.opentelemetry.io/otel/trace`. -/
def trace.noopSpan : Span := { id := 0, tracer := trace.noopTracer }

/-- The lookup `trace.SpanFromContext(ctx)` of `go.opentelemetry.io/otel/trace`:
the span carried by the context, and the no-op span for a nil context or a
context that carries none. It never returns nil. -/
def trace.SpanFromContext (ctx : Option Context) : Option Span :=
  match ctx with
  | none => some trace.noopSpan
  | some c =>
      match c.span with
      | some span => some span
      | none => some trace.noopSpan

/-- The call `opentracing.StartSpanFromContextWithTracer(ctx, tracer, name, opts...)`:
the tracer allocates a new span and the derived context carries it. -/
def StartSpanFromContextWithTracer (ctx : Option Context) (tracer : Tracer)
    (operationName : String) (opts : List StartSpanOption) (w : TraceWorld) :
    (Span × Context) × TraceWorld :=
  let span : Span := { id := w.next, tracer := tracer }
  let parent := (opentracing.SpanFromContext ctx).map (fun p => p.id)
  ((span, { span := some span }),
   { events := w.events ++ [Event.start parent tracer.name operationName opts span.id],
     next := w.next + 1 })

/-- The call `tracer.Inject(sc, format, HTTPHeadersCarrier(header))`: the header
map is updated in place, so the updated header is returned. -/
def Tracer.inject (t : Tracer) (sc : SpanContext) (format : BuiltinFormat) (header : Header)
    (w : TraceWorld) : Header × TraceWorld :=
  (t.Inject sc format header, w.emit (Event.inject t.name sc format header))

/-! ## The `runtime` client interfaces -/

/-- A `runtime.ClientRequest`; `GetHeaderParams()` returns `headers`. -/
structure ClientRequest where
  headers : Header
  payload : String
deriving DecidableEq, Repr

/-- The method `req.GetHeaderParams()`. -/
def ClientRequest.GetHeaderParams (req : ClientRequest) : Header := req.headers

/-- A `runtime.ClientResponse`; `Code()` returns `code`, a Go `int`. -/
structure ClientResponse where
  code : Int
  message : String
deriving DecidableEq, Repr

/-- The method `response.Code()`. -/
def ClientResponse.Code (r : ClientResponse) : Int := r.code

/-- A `strfmt.Registry`. -/
structure Registry where
  id : Nat
deriving DecidableEq, Repr

/-- A `runtime.Consumer`. -/
structure Consumer where
  id : Nat
deriving DecidableEq, Repr

/-- A `runtime.ClientRequestWriter` acting on a state `τ`: `WriteToRequest(req, reg)`
may update the request in place and returns an error or nil. -/
abbrev ClientRequestWriter (τ : Type) :=
  ClientRequest → Registry → τ → (ClientRequest × Option GoError) × τ

/-- A `runtime.ClientResponseReader` acting on a state `τ`:
`ReadResponse(response, consumer)` returns a result and an error or nil. -/
abbrev ClientResponseReader (τ : Type) :=
  ClientResponse → Consumer → τ → (Any × Option GoError) × τ

/-- Everything a hook can act on: the caller's state, the tracing world, and the
`span` variables of the activations of `Submit` (activation `c` declares
variable `c`); `calls` counts the activations so far. -/
structure World (σ : Type) where
  user : σ
  trace : TraceWorld
  spans : Nat → Option Span
  calls : Nat

/-- Assignment to the `span` variable of activation `c`. -/
def World.setSpan {σ : Type} (st : World σ) (c : Nat) (v : Option Span) : World σ :=
  { st with spans := fun i => if i = c then v else st.spans i }

/-- The fields of a `runtime.ClientOperation` the code reads or writes. -/
structure ClientOperation (σ : Type) where
  ID : String
  Method : String
  PathPattern : String
  Context : Option Context
  Params : ClientRequestWriter (World σ)
  Reader : ClientResponseReader (World σ)

/-- What a transport can inspect of an operation without invoking its hooks. -/
structure OperationView where
  ID : String
  Method : String
  PathPattern : String
  Context : Option Context

/-- The data fields of an operation. -/
def ClientOperation.view {σ : Type} (op : ClientOperation σ) : OperationView :=
  { ID := op.ID, Method := op.Method, PathPattern := op.PathPattern, Context := op.Context }

/-- The behaviour of one call of a transport's `Submit`, as a decision tree over
the hooks of the operation it was given. -/
inductive Script
  | ret (result : Any) (err : Option GoError)
  | write (req : ClientRequest) (reg : Registry) (k : ClientRequest → Option GoError → Script)
  | read (response : ClientResponse) (consumer : Consumer) (k : Any → Option GoError → Script)

/-- Runs a script against a parameter-writer and a response-reader. -/
def Script.run {τ : Type} (W : ClientRequestWriter τ) (R : ClientResponseReader τ) :
    Script → τ → (Any × Option GoError) × τ
  | Script.ret result err, st => ((result, err), st)
  | Script.write req reg k, st =>
      let r := W req reg st
      Script.run W R (k r.1.1 r.1.2) r.2
  | Script.read response consumer k, st =>
      let r := R response consumer st
      Script.run W R (k r.1.1 r.1.2) r.2

/-- The number of times a script invokes the parameter-writer on the path it takes. -/
def Script.writes {τ : Type} (W : ClientRequestWriter τ) (R : ClientResponseReader τ) :
    Script → τ → Nat
  | Script.ret _ _, _ => 0
  | Script.write req reg k, st =>
      let r := W req reg st
      Script.writes W R (k r.1.1 r.1.2) r.2 + 1
  | Script.read response consumer k, st =>
      let r := R response consumer st
      Script.writes W R (k r.1.1 r.1.2) r.2

/-- A `runtime.ClientTransport`: for each operation, the script its `Submit` follows. -/
structure ClientTransport where
  plan : OperationView → Script

/-- The method `transport.Submit(op)`. -/
def ClientTransport.Submit {σ : Type} (t : ClientTransport) (op : ClientOperation σ) :
    World σ → (Any × Option GoError) × World σ :=
  (t.plan op.view).run op.Params op.Reader

/-! ## `client/opentelemetry.go` -/

/-- The struct `openTelemetryTransport`. -/
structure openTelemetryTransport where
  transport : ClientTransport
  host : String
  opts : List StartSpanOption

/-- The constructor `newOpenTelemetryTransport`. -/
def newOpenTelemetryTransport (transport : ClientTransport) (host : String)
    (opts : List StartSpanOption) : openTelemetryTransport :=
  { transport := transport, host := host, opts := opts }

/-- The function `createOpenTelemetryClientSpan`. The package function
`operationName`, which is not part of this file, is a parameter. The header map
is updated in place by `Inject`, so the header is returned next to the span. -/
def createOpenTelemetryClientSpan {σ : Type} (operationName : OperationView → String)
    (op : ClientOperation σ) (header : Header) (host : String) (opts : List StartSpanOption)
    (w : TraceWorld) : Option Span × Header × TraceWorld :=
  let ctx := op.Context
  match trace.SpanFromContext ctx with
  | some parent =>
      let opts := opts ++ [ext.SpanKindRPCClient]
      let started := StartSpanFromContextWithTracer ctx parent.Tracer (operationName op.view) opts w
      let span := started.1.1
      let w := ext.Component.Set span "go-openapi" started.2
      let w := ext.PeerHostname.Set span host w
      let w := span.SetTag "http.path" (TagValue.str op.PathPattern) w
      let w := ext.HTTPMethod.Set span op.Method w
      let injected := span.Tracer.inject span.Context BuiltinFormat.HTTPHeaders header w
      (some span, injected.1, injected.2)
  | none => (none, header, w)

/-- Modelled from the spec: the function `createClientSpan` that `Submit` calls is
defined elsewhere in the package. This follows the span-creation algorithm of the
specification: look up a parent span in the operation's context and produce no
span if there is none; otherwise extend the options with the RPC-client-kind
marker, start a child span on the parent's tracer named by the operation name,
tag it with the component identifier, the peer host, the path pattern and the
method, inject its propagation context into the headers, and return it. -/
def createClientSpan {σ : Type} (operationName : OperationView → String)
    (op : ClientOperation σ) (header : Header) (host : String) (opts : List StartSpanOption)
    (w : TraceWorld) : Option Span × Header × TraceWorld :=
  match opentracing.SpanFromContext op.Context with
  | none => (none, header, w)
  | some parent =>
      let combined := opts ++ [ext.SpanKindRPCClient]
      let started :=
        StartSpanFromContextWithTracer op.Context parent.Tracer (operationName op.view) combined w
      let child := started.1.1
      let w1 := child.SetTag "component" (TagValue.str "go-openapi") started.2
      let w2 := child.SetTag "peer.hostname" (TagValue.str host) w1
      let w3 := child.SetTag "http.path" (TagValue.str op.PathPattern) w2
      let w4 := child.SetTag "http.method" (TagValue.str op.Method) w3
      let injected := child.Tracer.inject child.Context BuiltinFormat.HTTPHeaders header w4
      (some child, injected.1, injected.2)

/-- The closure assigned to `op.Params` by activation `c`; `params` is the
writer the operation held when the activation began. -/
def Submit.Params {σ : Type} (operationName : OperationView → String)
    (t : openTelemetryTransport) (op : ClientOperation σ) (c : Nat)
    (params : ClientRequestWriter (World σ)) : ClientRequestWriter (World σ) :=
  fun req reg st =>
    let created := createClientSpan operationName op req.GetHeaderParams t.host t.opts st.trace
    let st1 := ({ st with trace := created.2.2 }).setSpan c created.1
    params { req with headers := created.2.1 } reg st1

/-- The closure assigned to `op.Reader` by activation `c`; `reader` is the
reader the operation held when the activation began. -/
def Submit.Reader {σ : Type} (c : Nat) (reader : ClientResponseReader (World σ)) :
    ClientResponseReader (World σ) :=
  fun response consumer st =>
    let w :=
      match st.spans c with
      | some span =>
          let code := response.Code
          let w1 := ext.HTTPStatusCode.Set span (uint16 code) st.trace
          if code ≥ 400 then ext.Error.Set span true w1 else w1
      | none => st.trace
    reader response consumer { st with trace := w }

/-- The operation after the two assignments `op.Params = ...` and
`op.Reader = ...` of activation `c`: the caller's operation, updated in place. -/
def Submit.op {σ : Type} (operationName : OperationView → String)
    (t : openTelemetryTransport) (op : ClientOperation σ) (c : Nat) : ClientOperation σ :=
  let params := op.Params
  let reader := op.Reader
  { op with
      Params := Submit.Params operationName t op c params,
      Reader := Submit.Reader c reader }

/-- The declaration `var span trace.Span` of a new activation: a fresh variable,
initially nil. -/
def Submit.enter {σ : Type} (st : World σ) : World σ :=
  ({ st with calls := st.calls + 1 }).setSpan st.calls none

/-- The statement `if err != nil && span != nil { ... }` after the inner call. -/
def Submit.onError (err : Option GoError) (span : Option Span) (w : TraceWorld) : TraceWorld :=
  match err, span with
  | some e, some sp => sp.LogFields [log.Error e] (ext.Error.Set sp true w)
  | _, _ => w

/-- The deferred function: `if span != nil { span.End() }`. -/
def Submit.deferred (span : Option Span) (w : TraceWorld) : TraceWorld :=
  match span with
  | some sp => sp.End w
  | none => w

/-- The method `openTelemetryTransport.Submit`: the returned pair, the operation
as the caller holds it afterwards, and the world when the call has returned. -/
def openTelemetryTransport.Submit {σ : Type} (operationName : OperationView → String)
    (t : openTelemetryTransport) (op : ClientOperation σ) (st : World σ) :
    ((Any × Option GoError) × ClientOperation σ) × World σ :=
  match op.Context with
  | none =>
      let r := t.transport.Submit op st
      ((r.1, op), r.2)
  | some _ =>
      let c := st.calls
      let st0 := Submit.enter st
      let op1 := Submit.op operationName t op c
      let r := t.transport.Submit op1 st0
      let submit := r.1.1
      let err := r.1.2
      let w1 := Submit.onError err (r.2.spans c) r.2.trace
      let w2 := Submit.deferred (r.2.spans c) w1
      (((submit, err), op1), { r.2 with trace := w2 })

/-- The result and the world in which the inner transport's `Submit` returns,
during a call of `Submit` on a non-nil context. -/
def openTelemetryTransport.inner {σ : Type} (operationName : OperationView → String)
    (t : openTelemetryTransport) (op : ClientOperation σ) (st : World σ) :
    (Any × Option GoError) × World σ :=
  t.transport.Submit (Submit.op operationName t op st.calls) (Submit.enter st)

/-! ## Reading the record of tracing calls -/

/-- The calls recorded in `w1` after the point `w0`. -/
def TraceWorld.since (w0 w1 : TraceWorld) : List Event :=
  w1.events.drop w0.events.length

/-- The spans started, in order. -/
def started : List Event → List Nat
  | [] => []
  | Event.start _ _ _ _ span :: es => span :: started es
  | _ :: es => started es

/-- The spans ended, in order, one entry per call of `End`. -/
def ended : List Event → List Nat
  | [] => []
  | Event.finish span :: es => span :: ended es
  | _ :: es => ended es

/-- How many times `End` was called on the span `id`. -/
def endCount (id : Nat) (es : List Event) : Nat := (ended es).count id

/-- The values set for the tag `key` on the span `id`, in order. -/
def tagsOf (id : Nat) (key : String) : List Event → List TagValue
  | [] => []
  | Event.setTag span k v :: es =>
      if span = id ∧ k = key then v :: tagsOf id key es else tagsOf id key es
  | _ :: es => tagsOf id key es

/-- The calls span creation makes when the context carries the parent `p`. -/
def creationEvents (operationName : OperationView → String) (view : OperationView)
    (host : String) (opts : List StartSpanOption) (p : Span) (header : Header) (id : Nat) :
    List Event :=
  [ Event.start (some p.id) p.tracer.name (operationName view) (opts ++ [ext.SpanKindRPCClient]) id,
    Event.setTag id "component" (TagValue.str "go-openapi"),
    Event.setTag id "peer.hostname" (TagValue.str host),
    Event.setTag id "http.path" (TagValue.str view.PathPattern),
    Event.setTag id "http.method" (TagValue.str view.Method),
    Event.inject p.tracer.name ⟨id⟩ BuiltinFormat.HTTPHeaders header ]

/-- The calls the installed reader makes, before it hands over to the original
reader, when the span variable holds `span` and the status code is `code`. -/
def readerEvents (span : Option Span) (code : Int) : List Event :=
  match span with
  | some sp =>
      Event.setTag sp.id "http.status_code" (TagValue.uint16 (uint16 code)) ::
        (if code ≥ 400 then [Event.setTag sp.id "error" (TagValue.bool true)] else [])
  | none => []

/-- The calls `Submit` makes after the inner transport has returned: the error
tag and the error log when there is an error and a span, then `End` when there
is a span. -/
def closingEvents (err : Option GoError) (span : Option Span) : List Event :=
  match span with
  | none => []
  | some sp =>
      (match err with
        | some e =>
            [Event.setTag sp.id "error" (TagValue.bool true),
             Event.logFields sp.id [log.Error e]]
        | none => []) ++ [Event.finish sp.id]

/-- The number of times the inner transport invokes the operation's (installed)
parameter-writer during one call of `Submit` on a non-nil context. -/
def openTelemetryTransport.writerCalls {σ : Type} (operationName : OperationView → String)
    (t : openTelemetryTransport) (op : ClientOperation σ) (st : World σ) : Nat :=
  (t.transport.plan op.view).writes (Submit.op operationName t op st.calls).Params
    (Submit.op operationName t op st.calls).Reader (Submit.enter st)

/-- The tracing calls made during one call of `Submit`. -/
def openTelemetryTransport.trail {σ : Type} (operationName : OperationView → String)
    (t : openTelemetryTransport) (op : ClientOperation σ) (st : World σ) : List Event :=
  TraceWorld.since st.trace (t.Submit operationName op st).2.trace

/-! ## What an operation's own hooks may be assumed to do -/

/-- From `pre` to `post` the `span` variable of activation `c` was not assigned. -/
def Keeps {σ : Type} (c : Nat) (pre post : World σ) : Prop :=
  post.spans c = pre.spans c

/-- From `pre` to `post` no span was started, no span was ended and the `span`
variable of activation `c` was not assigned; other tracing calls may have been made. -/
def Quiet {σ : Type} (c : Nat) (pre post : World σ) : Prop :=
  post.spans c = pre.spans c ∧ post.trace.next = pre.trace.next ∧
    ∃ evs : List Event, post.trace.events = pre.trace.events ++ evs ∧
      started evs = [] ∧ ended evs = []

/-- A writer that never assigns the `span` variable of activation `c`. Every
writer that exists when activation `c` begins is one: the variable is
reachable only through the closures of that activation. -/
def KeepsWriter {σ : Type} (c : Nat) (W : ClientRequestWriter (World σ)) : Prop :=
  ∀ req reg st, Keeps c st (W req reg st).2

/-- A reader that never assigns the `span` variable of activation `c`. -/
def KeepsReader {σ : Type} (c : Nat) (R : ClientResponseReader (World σ)) : Prop :=
  ∀ response consumer st, Keeps c st (R response consumer st).2

/-- A writer that starts and ends no span and keeps the variable of activation `c`. -/
def QuietWriter {σ : Type} (c : Nat) (W : ClientRequestWriter (World σ)) : Prop :=
  ∀ req reg st, Quiet c st (W req reg st).2

/-- A reader that starts and ends no span and keeps the variable of activation `c`. -/
def QuietReader {σ : Type} (c : Nat) (R : ClientResponseReader (World σ)) : Prop :=
  ∀ response consumer st, Quiet c st (R response consumer st).2

/-- A writer that makes no tracing call. -/
def TracelessWriter {σ : Type} (W : ClientRequestWriter (World σ)) : Prop :=
  ∀ req reg st, (W req reg st).2.trace = st.trace

/-- A reader that makes no tracing call. -/
def TracelessReader {σ : Type} (R : ClientResponseReader (World σ)) : Prop :=
  ∀ response consumer st, (R response consumer st).2.trace = st.trace

/-- A parameter-writer that acts on the caller's state only. -/
def userWriter {σ : Type} (f : ClientRequestWriter σ) : ClientRequestWriter (World σ) :=
  fun req reg st => ((f req reg st.user).1, { st with user := (f req reg st.user).2 })

/-- A response-reader that acts on the caller's state only. -/
def userReader {σ : Type} (g : ClientResponseReader σ) : ClientResponseReader (World σ) :=
  fun response consumer st =>
    ((g response consumer st.user).1, { st with user := (g response consumer st.user).2 })

/-! ## Concrete instances -/

/-- A tracer that appends a header field encoding the span identifier in unary. -/
def exTracer : Tracer :=
  { name := 7, Inject := fun sc _ h => h ++ [("span-id", List.replicate sc.spanID "i")] }

/-- A span already active in the caller's context. -/
def exParent : Span := { id := 0, tracer := exTracer }

/-- A tracing world in which only the parent span exists. -/
def exWorld : TraceWorld := { events := [], next := 1 }

/-- A world before any call of `Submit`. -/
def exState : World Nat := { user := 0, trace := exWorld, spans := fun _ => none, calls := 0 }

/-- A writer on the caller's state that counts its invocations. -/
def exCount : ClientRequestWriter Nat := fun req _ n => ((req, none), n + 1)

/-- A reader on the caller's state that returns the status code and adds one hundred. -/
def exAnswer : ClientResponseReader Nat := fun resp _ n => ((Any.num resp.code, none), n + 100)

/-- The writer of a fresh operation. -/
def exParams : ClientRequestWriter (World Nat) := userWriter exCount

/-- The reader of a fresh operation. -/
def exReader : ClientResponseReader (World Nat) := userReader exAnswer

/-- The operation-name derivation used in the instances: the operation's ID. -/
def exName : OperationView → String := fun v => v.ID

/-- An operation whose context carries a parent span. -/
def exOp : ClientOperation Nat :=
  { ID := "getWidget", Method := "GET", PathPattern := "/widgets/{id}",
    Context := some { span := some exParent }, Params := exParams, Reader := exReader }

/-- The same operation with a context that carries no span. -/
def exOpBare : ClientOperation Nat := { exOp with Context := some { span := none } }

/-- The same operation with a nil context. -/
def exOpNil : ClientOperation Nat := { exOp with Context := none }

/-- An empty request. -/
def exReq : ClientRequest := { headers := [], payload := "" }

/-- A transport that writes the request once, reads a response with the given
status code and returns what the reader returned. -/
def exOnce (code : Int) : ClientTransport :=
  { plan := fun _ => Script.write exReq ⟨0⟩ (fun _ _ =>
      Script.read { code := code, message := "" } ⟨0⟩ (fun v e => Script.ret v e)) }

/-- A transport that builds the request twice (a retry) before reading a
response with status 200. -/
def exTwice : ClientTransport :=
  { plan := fun _ => Script.write exReq ⟨0⟩ (fun r _ => Script.write r ⟨0⟩ (fun _ _ =>
      Script.read { code := 200, message := "OK" } ⟨0⟩ (fun v e => Script.ret v e))) }

/-- A transport that fails after the request was written, before any response. -/
def exFail : ClientTransport :=
  { plan := fun _ => Script.write exReq ⟨0⟩ (fun _ _ =>
      Script.ret Any.null (some { msg := "connection refused" })) }

/-- A transport that answers from a cache: it reads a response with the given
status code without writing a request. -/
def exReadOnly (code : Int) : ClientTransport :=
  { plan := fun _ =>
      Script.read { code := code, message := "" } ⟨0⟩ (fun v e => Script.ret v e) }

/-- The instrumented transport around a given inner transport. -/
def exT (inner : ClientTransport) : openTelemetryTransport :=
  newOpenTelemetryTransport inner "example.org" [StartSpanOption.StartTime 5]

/-- The operation and the world after `exOp` went through one successful call. -/
def exSubmitted : ClientOperation Nat × World Nat :=
  (((exT (exOnce 200)).Submit exName exOp exState).1.2,
   ((exT (exOnce 200)).Submit exName exOp exState).2)

/-! ## Basic facts about the record -/

theorem since_append (w0 w1 : TraceWorld) (new : List Event)
    (h : w1.events = w0.events ++ new) : TraceWorld.since w0 w1 = new := by
  simp [TraceWorld.since, h]

theorem since_self (w : TraceWorld) : TraceWorld.since w w = [] := by
  simp [TraceWorld.since]

theorem started_append (xs ys : List Event) : started (xs ++ ys) = started xs ++ started ys := by
  induction xs with
  | nil => rfl
  | cons e es ih => cases e <;> simp [started, ih]

theorem ended_append (xs ys : List Event) : ended (xs ++ ys) = ended xs ++ ended ys := by
  induction xs with
  | nil => rfl
  | cons e es ih => cases e <;> simp [ended, ih]

theorem started_readerEvents (span : Option Span) (code : Int) :
    started (readerEvents span code) = [] := by
  cases span with
  | none => rfl
  | some sp => by_cases hc : code ≥ 400 <;> simp [readerEvents, hc, started]

theorem ended_readerEvents (span : Option Span) (code : Int) :
    ended (readerEvents span code) = [] := by
  cases span with
  | none => rfl
  | some sp => by_cases hc : code ≥ 400 <;> simp [readerEvents, hc, ended]

theorem started_creationEvents (operationName : OperationView → String) (view : OperationView)
    (host : String) (opts : List StartSpanOption) (p : Span) (header : Header) (id : Nat) :
    started (creationEvents operationName view host opts p header id) = [id] := rfl

theorem ended_creationEvents (operationName : OperationView → String) (view : OperationView)
    (host : String) (opts : List StartSpanOption) (p : Span) (header : Header) (id : Nat) :
    ended (creationEvents operationName view host opts p header id) = [] := rfl

theorem started_closingEvents (err : Option GoError) (span : Option Span) :
    started (closingEvents err span) = [] := by
  cases span <;> cases err <;> rfl

theorem ended_closingEvents (err : Option GoError) (span : Option Span) :
    ended (closingEvents err span) = (span.map (fun sp => sp.id)).toList := by
  cases span <;> cases err <;> rfl

theorem closing_world (err : Option GoError) (span : Option Span) (w : TraceWorld) :
    Submit.deferred span (Submit.onError err span w) =
      { events := w.events ++ closingEvents err span, next := w.next } := by
  cases span <;> cases err <;>
    simp [Submit.deferred, Submit.onError, closingEvents, Span.End, Span.LogFields,
      ext.Error.Set, Span.SetTag, TraceWorld.emit]

theorem uint16_cast (code : Int) : ((uint16 code : Nat) : Int) = code % 65536 := by
  unfold uint16
  exact Int.toNat_of_nonneg (Int.emod_nonneg code (by norm_num))

/-! ## The `span` variables -/

theorem setSpan_get {σ : Type} (st : World σ) (c : Nat) (v : Option Span) :
    (st.setSpan c v).spans c = v := by
  simp [World.setSpan]

theorem setSpan_same {σ : Type} (st : World σ) (c : Nat) (v : Option Span)
    (h : st.spans c = v) : st.setSpan c v = st := by
  cases st with
  | mk u tr sp ca =>
      simp only [World.setSpan]
      congr 1
      funext i
      by_cases hi : i = c
      · simp only [hi, if_true]; exact h.symm
      · simp [hi]

theorem enter_get {σ : Type} (st : World σ) : (Submit.enter st).spans st.calls = none := by
  simp [Submit.enter, World.setSpan]

/-! ## Span creation and the installed hooks -/

theorem createClientSpan_none {σ : Type} (operationName : OperationView → String)
    (op : ClientOperation σ) (header : Header) (host : String) (opts : List StartSpanOption)
    (w : TraceWorld) (h : opentracing.SpanFromContext op.Context = none) :
    createClientSpan operationName op header host opts w = (none, header, w) := by
  simp [createClientSpan, h]

theorem createClientSpan_some {σ : Type} (operationName : OperationView → String)
    (op : ClientOperation σ) (header : Header) (host : String) (opts : List StartSpanOption)
    (w : TraceWorld) (p : Span) (h : opentracing.SpanFromContext op.Context = some p) :
    createClientSpan operationName op header host opts w =
      (some ⟨w.next, p.tracer⟩,
       p.tracer.Inject ⟨w.next⟩ BuiltinFormat.HTTPHeaders header,
       { events := w.events ++ creationEvents operationName op.view host opts p header w.next,
         next := w.next + 1 }) := by
  simp [createClientSpan, h, StartSpanFromContextWithTracer, Span.SetTag, Tracer.inject,
    TraceWorld.emit, Span.Tracer, Span.Context, creationEvents, ClientOperation.view]

theorem Params_parent {σ : Type} (operationName : OperationView → String)
    (t : openTelemetryTransport) (op : ClientOperation σ) (c : Nat) (p : Span)
    (hp : opentracing.SpanFromContext op.Context = some p)
    (params : ClientRequestWriter (World σ))
    (req : ClientRequest) (reg : Registry) (st : World σ) :
    Submit.Params operationName t op c params req reg st =
      params
        { req with headers :=
            (p.tracer.Inject (SpanContext.mk st.trace.next) BuiltinFormat.HTTPHeaders
              req.GetHeaderParams) }
        reg
        (({ st with trace :=
              { events := st.trace.events ++ creationEvents operationName op.view t.host t.opts
                  p req.GetHeaderParams st.trace.next,
                next := st.trace.next + 1 } }).setSpan c
          (some ⟨st.trace.next, p.tracer⟩)) := by
  simp only [Submit.Params]
  rw [createClientSpan_some operationName op req.GetHeaderParams t.host t.opts st.trace p hp]

theorem Params_no_parent {σ : Type} (operationName : OperationView → String)
    (t : openTelemetryTransport) (op : ClientOperation σ) (c : Nat)
    (hp : opentracing.SpanFromContext op.Context = none)
    (params : ClientRequestWriter (World σ))
    (req : ClientRequest) (reg : Registry) (st : World σ) :
    Submit.Params operationName t op c params req reg st =
      params req reg (st.setSpan c none) := by
  simp only [Submit.Params]
  rw [createClientSpan_none operationName op req.GetHeaderParams t.host t.opts st.trace hp]
  rfl

theorem Reader_eq {σ : Type} (c : Nat) (reader : ClientResponseReader (World σ))
    (response : ClientResponse) (consumer : Consumer) (st : World σ) :
    Submit.Reader c reader response consumer st =
      reader response consumer
        { st with trace :=
            { events := st.trace.events ++ readerEvents (st.spans c) response.Code,
              next := st.trace.next } } := by
  cases hs : st.spans c with
  | none => simp [Submit.Reader, hs, readerEvents]
  | some sp =>
      by_cases hc : response.Code ≥ 400 <;>
        simp [Submit.Reader, hs, readerEvents, hc, ext.HTTPStatusCode.Set, ext.Error.Set,
          Span.SetTag, TraceWorld.emit]

/-! ## Hooks that act on the caller's state only -/

theorem userWriter_quiet {σ : Type} (c : Nat) (f : ClientRequestWriter σ) :
    QuietWriter c (userWriter f) :=
  fun _ _ _ => ⟨rfl, rfl, [], by simp [userWriter], rfl, rfl⟩

theorem userReader_quiet {σ : Type} (c : Nat) (g : ClientResponseReader σ) :
    QuietReader c (userReader g) :=
  fun _ _ _ => ⟨rfl, rfl, [], by simp [userReader], rfl, rfl⟩

theorem userWriter_keeps {σ : Type} (c : Nat) (f : ClientRequestWriter σ) :
    KeepsWriter c (userWriter f) := fun _ _ _ => rfl

theorem userReader_keeps {σ : Type} (c : Nat) (g : ClientResponseReader σ) :
    KeepsReader c (userReader g) := fun _ _ _ => rfl

theorem userWriter_traceless {σ : Type} (f : ClientRequestWriter σ) :
    TracelessWriter (userWriter f) := fun _ _ _ => rfl

theorem userReader_traceless {σ : Type} (g : ClientResponseReader σ) :
    TracelessReader (userReader g) := fun _ _ _ => rfl

theorem quietWriter_keeps {σ : Type} {c : Nat} {W : ClientRequestWriter (World σ)}
    (h : QuietWriter c W) : KeepsWriter c W := fun req reg st => (h req reg st).1

theorem quietReader_keeps {σ : Type} {c : Nat} {R : ClientResponseReader (World σ)}
    (h : QuietReader c R) : KeepsReader c R := fun a b st => (h a b st).1

/-- A script run against hooks on the caller's state only changes nothing else
and does not depend on anything else. -/
theorem run_user {σ : Type} (f : ClientRequestWriter σ) (g : ClientResponseReader σ) :
    ∀ (sc : Script) (st : World σ),
      sc.run (userWriter f) (userReader g) st =
        ((sc.run f g st.user).1, { st with user := (sc.run f g st.user).2 }) := by
  intro sc
  induction sc with
  | ret result err => intro st; rfl
  | write req reg k ih =>
      intro st
      have hrun : (Script.write req reg k).run (userWriter f) (userReader g) st
          = (k (f req reg st.user).1.1 (f req reg st.user).1.2).run (userWriter f)
              (userReader g) { st with user := (f req reg st.user).2 } := rfl
      rw [hrun, ih]
      rfl
  | read response consumer k ih =>
      intro st
      have hrun : (Script.read response consumer k).run (userWriter f) (userReader g) st
          = (k (g response consumer st.user).1.1 (g response consumer st.user).1.2).run
              (userWriter f) (userReader g)
              { st with user := (g response consumer st.user).2 } := rfl
      rw [hrun, ih]
      rfl

/-- A script run against hooks that make no tracing call makes none. -/
theorem run_traceless {σ : Type} (W : ClientRequestWriter (World σ))
    (R : ClientResponseReader (World σ)) (hW : TracelessWriter W) (hR : TracelessReader R) :
    ∀ (sc : Script) (st : World σ), (sc.run W R st).2.trace = st.trace := by
  intro sc
  induction sc with
  | ret result err => intro st; rfl
  | write req reg k ih =>
      intro st
      have hrun : (Script.write req reg k).run W R st
          = (k (W req reg st).1.1 (W req reg st).1.2).run W R (W req reg st).2 := rfl
      rw [hrun, ih, hW]
  | read response consumer k ih =>
      intro st
      have hrun : (Script.read response consumer k).run W R st
          = (k (R response consumer st).1.1 (R response consumer st).1.2).run W R
              (R response consumer st).2 := rfl
      rw [hrun, ih, hR]

/-! ## Runs of the inner transport against the installed hooks -/

/-- Counting along the run of a script, for any writer that starts exactly one
span per invocation and stores it in variable `c`, and any reader that starts
and ends nothing and leaves the variable alone. -/
theorem run_counting {σ : Type} (c : Nat) (tr : Tracer) (W : ClientRequestWriter (World σ))
    (R : ClientResponseReader (World σ))
    (hW : ∀ req reg st, ∃ ce : List Event,
      (W req reg st).2.trace.events = st.trace.events ++ ce ∧ started ce = [st.trace.next] ∧
      ended ce = [] ∧ (W req reg st).2.trace.next = st.trace.next + 1 ∧
      (W req reg st).2.spans c = some ⟨st.trace.next, tr⟩)
    (hR : ∀ resp co st, ∃ re : List Event,
      (R resp co st).2.trace.events = st.trace.events ++ re ∧ started re = [] ∧
      ended re = [] ∧ (R resp co st).2.trace.next = st.trace.next ∧
      (R resp co st).2.spans c = st.spans c) :
    ∀ (sc : Script) (st : World σ), ∃ new : List Event,
      (sc.run W R st).2.trace.events = st.trace.events ++ new ∧
      (sc.run W R st).2.trace.next = st.trace.next + sc.writes W R st ∧
      ended new = [] ∧
      started new = List.range' st.trace.next (sc.writes W R st) ∧
      (sc.writes W R st = 0 → (sc.run W R st).2.spans c = st.spans c) ∧
      (0 < sc.writes W R st →
        (sc.run W R st).2.spans c = some ⟨st.trace.next + sc.writes W R st - 1, tr⟩) := by
  intro sc
  induction sc with
  | ret result err =>
      intro st
      exact ⟨[], by simp [Script.run, Script.writes, started, ended]⟩
  | write req reg k ih =>
      intro st
      obtain ⟨ce, c1, c2, c3, c4, c5⟩ := hW req reg st
      obtain ⟨new, h1, h2, h3, h4, h5, h6⟩ :=
        ih (W req reg st).1.1 (W req reg st).1.2 (W req reg st).2
      have hrun : (Script.write req reg k).run W R st
          = (k (W req reg st).1.1 (W req reg st).1.2).run W R (W req reg st).2 := rfl
      have hwr : (Script.write req reg k).writes W R st
          = (k (W req reg st).1.1 (W req reg st).1.2).writes W R (W req reg st).2 + 1 := rfl
      rw [hrun, hwr]
      generalize (k (W req reg st).1.1 (W req reg st).1.2).writes W R (W req reg st).2 = n
        at h2 h4 h5 h6
      refine ⟨ce ++ new, ?_, ?_, ?_, ?_, ?_, ?_⟩
      · rw [h1, c1, List.append_assoc]
      · rw [h2, c4]; omega
      · rw [ended_append, c3, h3]; rfl
      · rw [started_append, c2, h4, c4, List.range'_succ]; rfl
      · intro h0; omega
      · intro _
        rcases Nat.eq_zero_or_pos n with hz | hpos
        · rw [h5 hz, c5, hz]; rfl
        · rw [h6 hpos, c4]
          congr 2
          omega
  | read response consumer k ih =>
      intro st
      obtain ⟨re, c1, c2, c3, c4, c5⟩ := hR response consumer st
      obtain ⟨new, h1, h2, h3, h4, h5, h6⟩ :=
        ih (R response consumer st).1.1 (R response consumer st).1.2 (R response consumer st).2
      have hrun : (Script.read response consumer k).run W R st
          = (k (R response consumer st).1.1 (R response consumer st).1.2).run W R
              (R response consumer st).2 := rfl
      have hwr : (Script.read response consumer k).writes W R st
          = (k (R response consumer st).1.1 (R response consumer st).1.2).writes W R
              (R response consumer st).2 := rfl
      rw [hrun, hwr]
      generalize (k (R response consumer st).1.1 (R response consumer st).1.2).writes W R
        (R response consumer st).2 = n at h2 h4 h5 h6
      refine ⟨re ++ new, ?_, ?_, ?_, ?_, ?_, ?_⟩
      · rw [h1, c1, List.append_assoc]
      · rw [h2, c4]
      · rw [ended_append, c3, h3]; rfl
      · rw [started_append, c2, h4, c4]; rfl
      · intro h0; rw [h5 h0, c5]
      · intro h0; rw [h6 h0, c4]

/-- Along the run of a script against a writer and a reader that start and end
no span, no span is started or ended; if the writer always leaves variable `c`
empty and the reader leaves it alone, an empty variable stays empty. -/
theorem run_quiet {σ : Type} (c : Nat) (W : ClientRequestWriter (World σ))
    (R : ClientResponseReader (World σ))
    (hW : ∀ req reg st, ∃ ce : List Event,
      (W req reg st).2.trace.events = st.trace.events ++ ce ∧ started ce = [] ∧
      ended ce = [] ∧ (W req reg st).2.spans c = none)
    (hR : ∀ resp co st, ∃ re : List Event,
      (R resp co st).2.trace.events = st.trace.events ++ re ∧ started re = [] ∧
      ended re = [] ∧ (R resp co st).2.spans c = st.spans c) :
    ∀ (sc : Script) (st : World σ), ∃ new : List Event,
      (sc.run W R st).2.trace.events = st.trace.events ++ new ∧
      started new = [] ∧ ended new = [] ∧
      (st.spans c = none → (sc.run W R st).2.spans c = none) := by
  intro sc
  induction sc with
  | ret result err =>
      intro st
      exact ⟨[], by simp [Script.run, started, ended]⟩
  | write req reg k ih =>
      intro st
      obtain ⟨ce, c1, c2, c3, c4⟩ := hW req reg st
      obtain ⟨new, h1, h2, h3, h4⟩ :=
        ih (W req reg st).1.1 (W req reg st).1.2 (W req reg st).2
      have hrun : (Script.write req reg k).run W R st
          = (k (W req reg st).1.1 (W req reg st).1.2).run W R (W req reg st).2 := rfl
      rw [hrun]
      refine ⟨ce ++ new, ?_, ?_, ?_, ?_⟩
      · rw [h1, c1, List.append_assoc]
      · rw [started_append, c2, h2]; rfl
      · rw [ended_append, c3, h3]; rfl
      · intro _; exact h4 c4
  | read response consumer k ih =>
      intro st
      obtain ⟨re, c1, c2, c3, c4⟩ := hR response consumer st
      obtain ⟨new, h1, h2, h3, h4⟩ :=
        ih (R response consumer st).1.1 (R response consumer st).1.2 (R response consumer st).2
      have hrun : (Script.read response consumer k).run W R st
          = (k (R response consumer st).1.1 (R response consumer st).1.2).run W R
              (R response consumer st).2 := rfl
      rw [hrun]
      refine ⟨re ++ new, ?_, ?_, ?_, ?_⟩
      · rw [h1, c1, List.append_assoc]
      · rw [started_append, c2, h2]; rfl
      · rw [ended_append, c3, h3]; rfl
      · intro hn; exact h4 (c4.trans hn)

theorem installed_writer_counts {σ : Type} (operationName : OperationView → String)
    (t : openTelemetryTransport) (op : ClientOperation σ) (c : Nat) (p : Span)
    (hp : opentracing.SpanFromContext op.Context = some p)
    (W0 : ClientRequestWriter (World σ)) (hW0 : QuietWriter c W0)
    (req : ClientRequest) (reg : Registry) (st : World σ) :
    ∃ ce : List Event,
      (Submit.Params operationName t op c W0 req reg st).2.trace.events
        = st.trace.events ++ ce ∧
      started ce = [st.trace.next] ∧ ended ce = [] ∧
      (Submit.Params operationName t op c W0 req reg st).2.trace.next = st.trace.next + 1 ∧
      (Submit.Params operationName t op c W0 req reg st).2.spans c
        = some ⟨st.trace.next, p.tracer⟩ := by
  rw [Params_parent operationName t op c p hp W0 req reg st]
  obtain ⟨hk, hn, evs, he, hs, hd⟩ := hW0
    { req with headers :=
        (p.tracer.Inject (SpanContext.mk st.trace.next) BuiltinFormat.HTTPHeaders
          req.GetHeaderParams) } reg
    (({ st with trace :=
          { events := st.trace.events ++ creationEvents operationName op.view t.host t.opts
              p req.GetHeaderParams st.trace.next,
            next := st.trace.next + 1 } }).setSpan c (some ⟨st.trace.next, p.tracer⟩))
  refine ⟨creationEvents operationName op.view t.host t.opts p req.GetHeaderParams
    st.trace.next ++ evs, ?_, ?_, ?_, ?_, ?_⟩
  · rw [he]; simp [World.setSpan]
  · rw [started_append, started_creationEvents, hs]; rfl
  · rw [ended_append, ended_creationEvents, hd]; rfl
  · rw [hn]; rfl
  · rw [hk, setSpan_get]

theorem installed_writer_quiet {σ : Type} (operationName : OperationView → String)
    (t : openTelemetryTransport) (op : ClientOperation σ) (c : Nat)
    (hp : opentracing.SpanFromContext op.Context = none)
    (W0 : ClientRequestWriter (World σ)) (hW0 : QuietWriter c W0)
    (req : ClientRequest) (reg : Registry) (st : World σ) :
    ∃ ce : List Event,
      (Submit.Params operationName t op c W0 req reg st).2.trace.events
        = st.trace.events ++ ce ∧
      started ce = [] ∧ ended ce = [] ∧
      (Submit.Params operationName t op c W0 req reg st).2.spans c = none := by
  rw [Params_no_parent operationName t op c hp W0 req reg st]
  obtain ⟨hk, _, evs, he, hs, hd⟩ := hW0 req reg (st.setSpan c none)
  exact ⟨evs, by rw [he]; rfl, hs, hd, by rw [hk, setSpan_get]⟩

theorem installed_reader_quiet {σ : Type} (c : Nat)
    (R0 : ClientResponseReader (World σ)) (hR0 : QuietReader c R0)
    (response : ClientResponse) (consumer : Consumer) (st : World σ) :
    ∃ re : List Event,
      (Submit.Reader c R0 response consumer st).2.trace.events = st.trace.events ++ re ∧
      started re = [] ∧ ended re = [] ∧
      (Submit.Reader c R0 response consumer st).2.trace.next = st.trace.next ∧
      (Submit.Reader c R0 response consumer st).2.spans c = st.spans c := by
  rw [Reader_eq]
  obtain ⟨hk, hn, evs, he, hs, hd⟩ := hR0 response consumer
    { st with trace :=
        { events := st.trace.events ++ readerEvents (st.spans c) response.Code,
          next := st.trace.next } }
  refine ⟨readerEvents (st.spans c) response.Code ++ evs, ?_, ?_, ?_, ?_, ?_⟩
  · rw [he]; simp
  · rw [started_append, started_readerEvents, hs]; rfl
  · rw [ended_append, ended_readerEvents, hd]; rfl
  · rw [hn]
  · rw [hk]

theorem Reader_of_empty {σ : Type} (c : Nat) (reader : ClientResponseReader (World σ))
    (response : ClientResponse) (consumer : Consumer) (st : World σ) (hs : st.spans c = none) :
    Submit.Reader c reader response consumer st = reader response consumer st := by
  simp [Submit.Reader, hs]

/-- While the `span` variable of activation `c` is empty and either the context
carries no parent span or the writer is not invoked, the installed hooks do
exactly what the original hooks do. -/
theorem run_transparent {σ : Type} (operationName : OperationView → String)
    (t : openTelemetryTransport) (op : ClientOperation σ) (c : Nat)
    (W0 : ClientRequestWriter (World σ)) (R0 : ClientResponseReader (World σ))
    (hW0 : KeepsWriter c W0) (hR0 : KeepsReader c R0) :
    ∀ (sc : Script) (st : World σ), st.spans c = none →
      (opentracing.SpanFromContext op.Context = none ∨
        sc.writes (Submit.Params operationName t op c W0) (Submit.Reader c R0) st = 0) →
      sc.run (Submit.Params operationName t op c W0) (Submit.Reader c R0) st
        = sc.run W0 R0 st := by
  intro sc
  induction sc with
  | ret result err => intro st _ _; rfl
  | write req reg k ih =>
      intro st hs hor
      have hp : opentracing.SpanFromContext op.Context = none := by
        rcases hor with hp | hz
        · exact hp
        · simp [Script.writes] at hz
      have hW : Submit.Params operationName t op c W0 req reg st = W0 req reg st := by
        rw [Params_no_parent operationName t op c hp W0 req reg st, setSpan_same st c none hs]
      have hrun : (Script.write req reg k).run (Submit.Params operationName t op c W0)
            (Submit.Reader c R0) st
          = (k (Submit.Params operationName t op c W0 req reg st).1.1
               (Submit.Params operationName t op c W0 req reg st).1.2).run
              (Submit.Params operationName t op c W0) (Submit.Reader c R0)
              (Submit.Params operationName t op c W0 req reg st).2 := rfl
      rw [hrun, hW, ih _ _ _ ((hW0 req reg st).trans hs) (Or.inl hp)]
      rfl
  | read response consumer k ih =>
      intro st hs hor
      have hR := Reader_of_empty c R0 response consumer st hs
      have hrun : (Script.read response consumer k).run (Submit.Params operationName t op c W0)
            (Submit.Reader c R0) st
          = (k (Submit.Reader c R0 response consumer st).1.1
               (Submit.Reader c R0 response consumer st).1.2).run
              (Submit.Params operationName t op c W0) (Submit.Reader c R0)
              (Submit.Reader c R0 response consumer st).2 := rfl
      have hwr : (Script.read response consumer k).writes
            (Submit.Params operationName t op c W0) (Submit.Reader c R0) st
          = (k (Submit.Reader c R0 response consumer st).1.1
               (Submit.Reader c R0 response consumer st).1.2).writes
              (Submit.Params operationName t op c W0) (Submit.Reader c R0)
              (Submit.Reader c R0 response consumer st).2 := rfl
      rw [hwr] at hor
      rw [hrun]
      rw [hR] at hor ⊢
      rw [ih _ _ _ ((hR0 response consumer st).trans hs) hor]
      rfl

/-- When the context carries a parent span and the original hooks leave the
variable alone, the variable is set once the writer has been invoked. -/
theorem run_sets_variable {σ : Type} (operationName : OperationView → String)
    (t : openTelemetryTransport) (op : ClientOperation σ) (c : Nat) (p : Span)
    (hp : opentracing.SpanFromContext op.Context = some p)
    (W0 : ClientRequestWriter (World σ)) (R0 : ClientResponseReader (World σ))
    (hW0 : KeepsWriter c W0) (hR0 : KeepsReader c R0) :
    ∀ (sc : Script) (st : World σ),
      (0 < sc.writes (Submit.Params operationName t op c W0) (Submit.Reader c R0) st ∨
        st.spans c ≠ none) →
      (sc.run (Submit.Params operationName t op c W0) (Submit.Reader c R0) st).2.spans c
        ≠ none := by
  intro sc
  induction sc with
  | ret result err =>
      intro st hor
      rcases hor with h | h
      · simp [Script.writes] at h
      · exact h
  | write req reg k ih =>
      intro st _
      have hrun : (Script.write req reg k).run (Submit.Params operationName t op c W0)
            (Submit.Reader c R0) st
          = (k (Submit.Params operationName t op c W0 req reg st).1.1
               (Submit.Params operationName t op c W0 req reg st).1.2).run
              (Submit.Params operationName t op c W0) (Submit.Reader c R0)
              (Submit.Params operationName t op c W0 req reg st).2 := rfl
      rw [hrun]
      apply ih
      right
      rw [Params_parent operationName t op c p hp W0 req reg st, hW0, setSpan_get]
      simp
  | read response consumer k ih =>
      intro st hor
      have hrun : (Script.read response consumer k).run (Submit.Params operationName t op c W0)
            (Submit.Reader c R0) st
          = (k (Submit.Reader c R0 response consumer st).1.1
               (Submit.Reader c R0 response consumer st).1.2).run
              (Submit.Params operationName t op c W0) (Submit.Reader c R0)
              (Submit.Reader c R0 response consumer st).2 := rfl
      have hwr : (Script.read response consumer k).writes
            (Submit.Params operationName t op c W0) (Submit.Reader c R0) st
          = (k (Submit.Reader c R0 response consumer st).1.1
               (Submit.Reader c R0 response consumer st).1.2).writes
              (Submit.Params operationName t op c W0) (Submit.Reader c R0)
              (Submit.Reader c R0 response consumer st).2 := rfl
      rw [hrun]
      apply ih
      rw [hwr] at hor
      rcases hor with h | h
      · exact Or.inl h
      · right
        rw [Reader_eq, hR0]
        exact h

/-! ## `Submit` in terms of the inner call -/

theorem Submit_some {σ : Type} (operationName : OperationView → String)
    (t : openTelemetryTransport) (op : ClientOperation σ) (st : World σ)
    (ctx : Context) (h : op.Context = some ctx) :
    t.Submit operationName op st =
      (((t.inner operationName op st).1, Submit.op operationName t op st.calls),
       { (t.inner operationName op st).2 with
          trace :=
            { events := (t.inner operationName op st).2.trace.events ++
                closingEvents (t.inner operationName op st).1.2
                  ((t.inner operationName op st).2.spans st.calls),
              next := (t.inner operationName op st).2.trace.next } }) := by
  simp [openTelemetryTransport.Submit, h, openTelemetryTransport.inner, closing_world]

theorem inner_eq {σ : Type} (operationName : OperationView → String)
    (t : openTelemetryTransport) (op : ClientOperation σ) (st : World σ) :
    t.inner operationName op st =
      (t.transport.plan op.view).run (Submit.Params operationName t op st.calls op.Params)
        (Submit.Reader st.calls op.Reader) (Submit.enter st) := rfl

theorem writerCalls_eq {σ : Type} (operationName : OperationView → String)
    (t : openTelemetryTransport) (op : ClientOperation σ) (st : World σ) :
    t.writerCalls operationName op st =
      (t.transport.plan op.view).writes (Submit.Params operationName t op st.calls op.Params)
        (Submit.Reader st.calls op.Reader) (Submit.enter st) := rfl

theorem trail_eq {σ : Type} (operationName : OperationView → String)
    (t : openTelemetryTransport) (op : ClientOperation σ) (st : World σ)
    (ctx : Context) (h : op.Context = some ctx) (new : List Event)
    (hnew : (t.inner operationName op st).2.trace.events = st.trace.events ++ new) :
    t.trail operationName op st =
      new ++ closingEvents (t.inner operationName op st).1.2
        ((t.inner operationName op st).2.spans st.calls) := by
  unfold openTelemetryTransport.trail
  apply since_append
  rw [Submit_some operationName t op st ctx h]
  simp only
  rw [hnew, List.append_assoc]

theorem inner_with_parent {σ : Type} (operationName : OperationView → String)
    (t : openTelemetryTransport) (op : ClientOperation σ) (st : World σ)
    (p : Span) (hp : opentracing.SpanFromContext op.Context = some p)
    (hW : QuietWriter st.calls op.Params) (hR : QuietReader st.calls op.Reader) :
    ∃ new : List Event,
      (t.inner operationName op st).2.trace.events = st.trace.events ++ new ∧
      ended new = [] ∧
      started new = List.range' st.trace.next (t.writerCalls operationName op st) ∧
      (t.writerCalls operationName op st = 0 →
        (t.inner operationName op st).2.spans st.calls = none) ∧
      (0 < t.writerCalls operationName op st →
        (t.inner operationName op st).2.spans st.calls =
          some ⟨st.trace.next + t.writerCalls operationName op st - 1, p.tracer⟩) := by
  obtain ⟨new, h1, _, h3, h4, h5, h6⟩ :=
    run_counting st.calls p.tracer (Submit.Params operationName t op st.calls op.Params)
      (Submit.Reader st.calls op.Reader)
      (installed_writer_counts operationName t op st.calls p hp op.Params hW)
      (installed_reader_quiet st.calls op.Reader hR)
      (t.transport.plan op.view) (Submit.enter st)
  rw [inner_eq, writerCalls_eq]
  exact ⟨new, h1, h3, h4, fun h0 => (h5 h0).trans (enter_get st), h6⟩

theorem inner_without_parent {σ : Type} (operationName : OperationView → String)
    (t : openTelemetryTransport) (op : ClientOperation σ) (st : World σ)
    (hp : opentracing.SpanFromContext op.Context = none)
    (hW : QuietWriter st.calls op.Params) (hR : QuietReader st.calls op.Reader) :
    ∃ new : List Event,
      (t.inner operationName op st).2.trace.events = st.trace.events ++ new ∧
      started new = [] ∧ ended new = [] ∧
      (t.inner operationName op st).2.spans st.calls = none := by
  obtain ⟨new, h1, h2, h3, h4⟩ :=
    run_quiet st.calls (Submit.Params operationName t op st.calls op.Params)
      (Submit.Reader st.calls op.Reader)
      (installed_writer_quiet operationName t op st.calls hp op.Params hW)
      (fun a b s => by
        obtain ⟨re, r1, r2, r3, _, r5⟩ := installed_reader_quiet st.calls op.Reader hR a b s
        exact ⟨re, r1, r2, r3, r5⟩)
      (t.transport.plan op.view) (Submit.enter st)
  rw [inner_eq]
  exact ⟨new, h1, h2, h3, h4 (enter_get st)⟩

/-- The spans started and ended by one call of `Submit` on a context with a
parent span, for an operation whose own hooks start and end no span. -/
theorem trail_with_parent {σ : Type} (operationName : OperationView → String)
    (t : openTelemetryTransport) (op : ClientOperation σ) (st : World σ)
    (ctx : Context) (h : op.Context = some ctx)
    (p : Span) (hp : opentracing.SpanFromContext op.Context = some p)
    (hW : QuietWriter st.calls op.Params) (hR : QuietReader st.calls op.Reader) :
    started (t.trail operationName op st)
        = List.range' st.trace.next (t.writerCalls operationName op st) ∧
      ended (t.trail operationName op st)
        = if t.writerCalls operationName op st = 0 then []
          else [st.trace.next + t.writerCalls operationName op st - 1] := by
  obtain ⟨new, h1, h3, h4, h5, h6⟩ := inner_with_parent operationName t op st p hp hW hR
  rw [trail_eq operationName t op st ctx h new h1, started_append, ended_append,
    started_closingEvents, ended_closingEvents, h3, h4]
  refine ⟨by simp, ?_⟩
  rcases Nat.eq_zero_or_pos (t.writerCalls operationName op st) with hz | hpos
  · rw [h5 hz, if_pos hz]; rfl
  · rw [h6 hpos, if_neg (by omega)]; rfl

/-- One call of `Submit` on a context without a parent span, for an operation
whose own hooks start and end no span, starts and ends no span. -/
theorem trail_without_parent {σ : Type} (operationName : OperationView → String)
    (t : openTelemetryTransport) (op : ClientOperation σ) (st : World σ)
    (ctx : Context) (h : op.Context = some ctx)
    (hp : opentracing.SpanFromContext op.Context = none)
    (hW : QuietWriter st.calls op.Params) (hR : QuietReader st.calls op.Reader) :
    started (t.trail operationName op st) = [] ∧ ended (t.trail operationName op st) = [] := by
  obtain ⟨new, h1, h2, h3, h4⟩ := inner_without_parent operationName t op st hp hW hR
  rw [trail_eq operationName t op st ctx h new h1, started_append, ended_append,
    started_closingEvents, ended_closingEvents, h2, h3, h4]
  exact ⟨rfl, rfl⟩

/-- In general `Submit` ends exactly the span started last, once: spans started
by earlier writer invocations are not ended. -/
theorem Submit_ends_last_started {σ : Type} (operationName : OperationView → String)
    (t : openTelemetryTransport) (op : ClientOperation σ) (st : World σ)
    (ctx : Context) (h : op.Context = some ctx)
    (hW : QuietWriter st.calls op.Params) (hR : QuietReader st.calls op.Reader) :
    ended (t.trail operationName op st)
      = (started (t.trail operationName op st)).getLast?.toList := by
  cases hp : opentracing.SpanFromContext op.Context with
  | none =>
      obtain ⟨h1, h2⟩ := trail_without_parent operationName t op st ctx h hp hW hR
      rw [h1, h2]; rfl
  | some p =>
      obtain ⟨h1, h2⟩ := trail_with_parent operationName t op st ctx h p hp hW hR
      rw [h1, h2, List.getLast?_range']
      by_cases hz : t.writerCalls operationName op st = 0 <;> simp [hz]

/-- When the `span` variable is empty as the inner transport returns, the call
was the inner transport run against the operation's original hooks. -/
theorem inner_transparent {σ : Type} (operationName : OperationView → String)
    (t : openTelemetryTransport) (op : ClientOperation σ) (st : World σ)
    (hW : KeepsWriter st.calls op.Params) (hR : KeepsReader st.calls op.Reader)
    (hs : opentracing.SpanFromContext op.Context = none ∨
      (t.inner operationName op st).2.spans st.calls = none) :
    t.inner operationName op st = t.transport.Submit op (Submit.enter st) := by
  rw [inner_eq]
  apply run_transparent operationName t op st.calls op.Params op.Reader hW hR
    (t.transport.plan op.view) (Submit.enter st) (enter_get st)
  rcases hs with hp | hn
  · exact Or.inl hp
  · cases hp : opentracing.SpanFromContext op.Context with
    | none => exact Or.inl rfl
    | some p =>
        right
        by_contra hne
        exact run_sets_variable operationName t op st.calls p hp op.Params op.Reader hW hR
          (t.transport.plan op.view) (Submit.enter st) (Or.inl (Nat.pos_of_ne_zero hne))
          (by rw [← inner_eq]; exact hn)

theorem run_keeps {σ : Type} (c : Nat) (W : ClientRequestWriter (World σ))
    (R : ClientResponseReader (World σ)) (hW : KeepsWriter c W) (hR : KeepsReader c R) :
    ∀ (sc : Script) (st : World σ), (sc.run W R st).2.spans c = st.spans c := by
  intro sc
  induction sc with
  | ret result err => intro st; rfl
  | write req reg k ih =>
      intro st
      have hrun : (Script.write req reg k).run W R st
          = (k (W req reg st).1.1 (W req reg st).1.2).run W R (W req reg st).2 := rfl
      rw [hrun, ih]
      exact hW req reg st
  | read response consumer k ih =>
      intro st
      have hrun : (Script.read response consumer k).run W R st
          = (k (R response consumer st).1.1 (R response consumer st).1.2).run W R
              (R response consumer st).2 := rfl
      rw [hrun, ih]
      exact hR response consumer st

theorem Submit_op {σ : Type} (operationName : OperationView → String)
    (t : openTelemetryTransport) (op : ClientOperation σ) (st : World σ)
    (ctx : Context) (h : op.Context = some ctx) :
    (t.Submit operationName op st).1.2 = Submit.op operationName t op st.calls := by
  rw [Submit_some operationName t op st ctx h]

/-- When the `span` variable is empty as the inner transport returns, `Submit`
returns in the world in which the inner transport returned. -/
theorem Submit_world_of_empty {σ : Type} (operationName : OperationView → String)
    (t : openTelemetryTransport) (op : ClientOperation σ) (st : World σ)
    (ctx : Context) (h : op.Context = some ctx)
    (hn : (t.inner operationName op st).2.spans st.calls = none) :
    (t.Submit operationName op st).2 = (t.inner operationName op st).2 := by
  rw [Submit_some operationName t op st ctx h]
  simp only [hn, closingEvents, List.append_nil]

/-! ## The claims -/

/-- C1: on an operation whose Context is nil, `Submit` is the inner transport's
`Submit` on the unmodified operation: the returned pair and the world are those
of one direct call, and the operation is returned with its own Params and
Reader. So the wrapper starts, tags, logs and ends no span and injects nothing;
when the operation's own hooks make no tracing call, none is made at all. -/
theorem Submit_nil_context {σ : Type} (operationName : OperationView → String)
    (t : openTelemetryTransport) (op : ClientOperation σ) (st : World σ)
    (h : op.Context = none) :
    t.Submit operationName op st
        = (((t.transport.Submit op st).1, op), (t.transport.Submit op st).2) ∧
    (TracelessWriter op.Params → TracelessReader op.Reader →
      (t.Submit operationName op st).2.trace = st.trace) := by
  have hS : t.Submit operationName op st
      = (((t.transport.Submit op st).1, op), (t.transport.Submit op st).2) := by
    simp [openTelemetryTransport.Submit, h]
  refine ⟨hS, fun hW hR => ?_⟩
  rw [hS]
  exact run_traceless op.Params op.Reader hW hR (t.transport.plan op.view) st

theorem Submit_nil_context_witness :
    exOpNil.Context = none ∧
    (exT exTwice).Submit exName exOpNil exState
        = ((((exT exTwice).transport.Submit exOpNil exState).1, exOpNil),
           ((exT exTwice).transport.Submit exOpNil exState).2) ∧
    ((exT exTwice).Submit exName exOpNil exState).2.trace = exState.trace :=
  ⟨rfl, (Submit_nil_context exName (exT exTwice) exOpNil exState rfl).1,
    (Submit_nil_context exName (exT exTwice) exOpNil exState rfl).2
      (userWriter_traceless _) (userReader_traceless _)⟩

/-- C2: on an operation with a non-nil Context, the pair `Submit` returns is the
pair the inner transport's `Submit` returned on the operation it was handed,
whatever the script of the inner transport, the status codes it read and the
error it returned. When the context carries no parent span, that pair and the
final world are those of the inner transport called directly on the caller's
own operation (for hooks that act on the caller's state only: called in the
world in which `Submit` was called). -/
theorem Submit_returns_inner_pair {σ : Type} (operationName : OperationView → String)
    (t : openTelemetryTransport) (op : ClientOperation σ) (st : World σ)
    (ctx : Context) (h : op.Context = some ctx) :
    (t.Submit operationName op st).1.1
        = (t.transport.Submit (Submit.op operationName t op st.calls) (Submit.enter st)).1 ∧
    (opentracing.SpanFromContext op.Context = none →
      KeepsWriter st.calls op.Params → KeepsReader st.calls op.Reader →
        (t.Submit operationName op st).1.1 = (t.transport.Submit op (Submit.enter st)).1 ∧
        (t.Submit operationName op st).2 = (t.transport.Submit op (Submit.enter st)).2) ∧
    (opentracing.SpanFromContext op.Context = none →
      ∀ (f : ClientRequestWriter σ) (g : ClientResponseReader σ),
        op.Params = userWriter f → op.Reader = userReader g →
        (t.Submit operationName op st).1.1 = (t.transport.Submit op st).1 ∧
        (t.Submit operationName op st).2.user = (t.transport.Submit op st).2.user) := by
  have hS := Submit_some operationName t op st ctx h
  have key : opentracing.SpanFromContext op.Context = none →
      KeepsWriter st.calls op.Params → KeepsReader st.calls op.Reader →
        (t.Submit operationName op st).1.1 = (t.transport.Submit op (Submit.enter st)).1 ∧
        (t.Submit operationName op st).2 = (t.transport.Submit op (Submit.enter st)).2 := by
    intro hp hW hR
    have hi := inner_transparent operationName t op st hW hR (Or.inl hp)
    have hn : (t.inner operationName op st).2.spans st.calls = none := by
      rw [hi]
      exact (run_keeps st.calls op.Params op.Reader hW hR (t.transport.plan op.view)
        (Submit.enter st)).trans (enter_get st)
    refine ⟨?_, ?_⟩
    · rw [hS, hi]
    · rw [Submit_world_of_empty operationName t op st ctx h hn, hi]
  refine ⟨by rw [hS]; rfl, key, ?_⟩
  intro hp f g hf hg
  have hW : KeepsWriter st.calls op.Params := by rw [hf]; exact userWriter_keeps _ f
  have hR : KeepsReader st.calls op.Reader := by rw [hg]; exact userReader_keeps _ g
  obtain ⟨k1, k2⟩ := key hp hW hR
  rw [k1, k2]
  unfold ClientTransport.Submit
  rw [hf, hg, run_user, run_user]
  exact ⟨rfl, rfl⟩

theorem Submit_returns_inner_pair_witness :
    exOpBare.Context = some { span := none } ∧
    ((exT (exOnce 404)).Submit exName exOpBare exState).1.1
        = ((exT (exOnce 404)).transport.Submit
            (Submit.op exName (exT (exOnce 404)) exOpBare exState.calls)
            (Submit.enter exState)).1 ∧
    (((exT (exOnce 404)).Submit exName exOpBare exState).1.1
        = ((exT (exOnce 404)).transport.Submit exOpBare exState).1 ∧
      ((exT (exOnce 404)).Submit exName exOpBare exState).2.user
        = ((exT (exOnce 404)).transport.Submit exOpBare exState).2.user) ∧
    ((exT (exOnce 404)).Submit exName exOpBare exState).1.1 = (Any.num 404, none) :=
  ⟨rfl, (Submit_returns_inner_pair exName (exT (exOnce 404)) exOpBare exState _ rfl).1,
    (Submit_returns_inner_pair exName (exT (exOnce 404)) exOpBare exState _ rfl).2.2 rfl
      exCount exAnswer rfl rfl,
    by decide⟩

/-- C3: the two hooks `Submit` leaves on the operation (and hands to the inner
transport) are transparent delegates. The installed writer first builds the
span from the request's header params and stores it in the span variable, then
runs the operation's original writer once, on the same request (whose header
collection span creation has just updated in place) and the same registry, and
returns what it returned. With a parent span the original writer sees the
injected headers; without one it sees the request as it was. The installed
reader runs the original reader once, on the same response and consumer, after
its own tagging, and returns what it returned, whatever the span variable
holds and whatever the status code is. The data fields are left alone. -/
theorem hooks_delegate {σ : Type} (operationName : OperationView → String)
    (t : openTelemetryTransport) (op : ClientOperation σ) (st : World σ)
    (ctx : Context) (h : op.Context = some ctx)
    (req : ClientRequest) (reg : Registry) (response : ClientResponse) (consumer : Consumer)
    (now : World σ) :
    (t.Submit operationName op st).1.2.Params req reg now
      = op.Params
          { req with headers :=
              (createClientSpan operationName op req.GetHeaderParams t.host t.opts
                now.trace).2.1 }
          reg
          (({ now with trace :=
                (createClientSpan operationName op req.GetHeaderParams t.host t.opts
                  now.trace).2.2 }).setSpan st.calls
            (createClientSpan operationName op req.GetHeaderParams t.host t.opts
              now.trace).1) ∧
    (t.Submit operationName op st).1.2.Reader response consumer now
      = op.Reader response consumer
          { now with trace :=
              { events := now.trace.events ++
                  readerEvents (now.spans st.calls) response.Code,
                next := now.trace.next } } ∧
    (∀ p, opentracing.SpanFromContext op.Context = some p →
      (t.Submit operationName op st).1.2.Params req reg now
        = op.Params
            { req with headers :=
                (p.Tracer.Inject (SpanContext.mk now.trace.next) BuiltinFormat.HTTPHeaders
                  req.GetHeaderParams) }
            reg
            (({ now with trace :=
                  { events := now.trace.events ++ creationEvents operationName op.view
                      t.host t.opts p req.GetHeaderParams now.trace.next,
                    next := now.trace.next + 1 } }).setSpan st.calls
              (some ⟨now.trace.next, p.Tracer⟩))) ∧
    (opentracing.SpanFromContext op.Context = none →
      (t.Submit operationName op st).1.2.Params req reg now
        = op.Params req reg (now.setSpan st.calls none)) ∧
    (t.Submit operationName op st).1.2.view = op.view := by
  rw [Submit_op operationName t op st ctx h]
  refine ⟨rfl, Reader_eq st.calls op.Reader response consumer now, ?_, ?_, rfl⟩
  · intro p hp
    exact Params_parent operationName t op st.calls p hp op.Params req reg now
  · intro hp
    exact Params_no_parent operationName t op st.calls hp op.Params req reg now

theorem hooks_delegate_witness :
    exOp.Context = some { span := some exParent } ∧
    opentracing.SpanFromContext exOp.Context = some exParent ∧
    (((exT exFail).Submit exName exOp exState).1.2.Params exReq ⟨0⟩ (Submit.enter exState)).1
      = (({ headers := [("span-id", ["i"])], payload := "" } : ClientRequest), none) ∧
    (((exT exFail).Submit exName exOp exState).1.2.Params exReq ⟨0⟩
      (Submit.enter exState)).2.user = 1 ∧
    (((exT exFail).Submit exName exOp exState).1.2.Reader { code := 500, message := "" } ⟨0⟩
      (Submit.enter exState)).1 = (Any.num 500, none) ∧
    (((exT exFail).Submit exName exOp exState).1.2.Reader { code := 500, message := "" } ⟨0⟩
      (Submit.enter exState)).2.user = 100 :=
  ⟨rfl, rfl,
   (congrArg (fun r => r.1)
      ((hooks_delegate exName (exT exFail) exOp exState _ rfl exReq ⟨0⟩
        { code := 500, message := "" } ⟨0⟩ (Submit.enter exState)).2.2.1 exParent rfl)).trans
     (by decide),
   (congrArg (fun r => r.2.user)
      ((hooks_delegate exName (exT exFail) exOp exState _ rfl exReq ⟨0⟩
        { code := 500, message := "" } ⟨0⟩ (Submit.enter exState)).2.2.1 exParent rfl)).trans
     (by decide),
   (congrArg (fun r => r.1)
      (hooks_delegate exName (exT exFail) exOp exState _ rfl exReq ⟨0⟩
        { code := 500, message := "" } ⟨0⟩ (Submit.enter exState)).2.1).trans (by decide),
   (congrArg (fun r => r.2.user)
      (hooks_delegate exName (exT exFail) exOp exState _ rfl exReq ⟨0⟩
        { code := 500, message := "" } ⟨0⟩ (Submit.enter exState)).2.1).trans (by decide)⟩

/-- C6: while the span variable holds a span, the reader `Submit` installed
sets that span's status-code tag and then its error tag, to true, exactly when
the status code is at least 400, before it hands over to the original reader;
below 400 it sets no error tag. When the original reader makes no tracing call,
these are all the error tags recorded while the installed reader runs. -/
theorem Reader_error_tag {σ : Type} (operationName : OperationView → String)
    (t : openTelemetryTransport) (op : ClientOperation σ) (st : World σ)
    (ctx : Context) (h : op.Context = some ctx)
    (response : ClientResponse) (consumer : Consumer) (now : World σ) (sp : Span)
    (hsp : now.spans st.calls = some sp) :
    (t.Submit operationName op st).1.2.Reader response consumer now
      = op.Reader response consumer
          { now with trace :=
              { events := now.trace.events ++
                  (Event.setTag sp.id "http.status_code"
                      (TagValue.uint16 (uint16 response.Code)) ::
                    (if response.Code ≥ 400
                      then [Event.setTag sp.id "error" (TagValue.bool true)] else [])),
                next := now.trace.next } } ∧
    (TracelessReader op.Reader →
      tagsOf sp.id "error" (TraceWorld.since now.trace
          ((t.Submit operationName op st).1.2.Reader response consumer now).2.trace)
        = (if response.Code ≥ 400 then [TagValue.bool true] else []) ∧
      (TagValue.bool true ∈ tagsOf sp.id "error" (TraceWorld.since now.trace
          ((t.Submit operationName op st).1.2.Reader response consumer now).2.trace)
        ↔ response.Code ≥ 400)) := by
  have h1 : (t.Submit operationName op st).1.2.Reader response consumer now
      = op.Reader response consumer
          { now with trace :=
              { events := now.trace.events ++
                  (Event.setTag sp.id "http.status_code"
                      (TagValue.uint16 (uint16 response.Code)) ::
                    (if response.Code ≥ 400
                      then [Event.setTag sp.id "error" (TagValue.bool true)] else [])),
                next := now.trace.next } } := by
    rw [Submit_op operationName t op st ctx h]
    show Submit.Reader st.calls op.Reader response consumer now = _
    rw [Reader_eq, hsp]
    rfl
  refine ⟨h1, fun hR => ?_⟩
  rw [h1, hR, since_append now.trace _ _ rfl]
  by_cases hc : response.Code ≥ 400 <;> simp [tagsOf, hc]

theorem Reader_error_tag_witness :
    exOp.Context = some { span := some exParent } ∧
    ((Submit.enter exState).setSpan 0 (some ⟨1, exTracer⟩)).spans exState.calls
      = some ⟨1, exTracer⟩ ∧
    tagsOf 1 "error" (TraceWorld.since exWorld
        (((exT (exOnce 503)).Submit exName exOp exState).1.2.Reader
          { code := 503, message := "" } ⟨0⟩
          ((Submit.enter exState).setSpan 0 (some ⟨1, exTracer⟩))).2.trace)
      = [TagValue.bool true] ∧
    tagsOf 1 "error" ((exT (exOnce 503)).trail exName exOp exState) = [TagValue.bool true] ∧
    tagsOf 1 "error" ((exT (exOnce 399)).trail exName exOp exState) = [] :=
  ⟨rfl, rfl,
   ((Reader_error_tag exName (exT (exOnce 503)) exOp exState _ rfl
      { code := 503, message := "" } ⟨0⟩
      ((Submit.enter exState).setSpan 0 (some ⟨1, exTracer⟩)) ⟨1, exTracer⟩ rfl).2
        (userReader_traceless _)).1.trans (by decide),
   by decide, by decide⟩

/-- C7, as stated, fails: when the inner transport reads a response whose
`Code()` is 65940, `Submit` records the HTTP-status-code tag 404 on the span,
because the installed reader converts the code to `uint16`. -/
theorem status_tag_counterexample :
    exOp.Context = some { span := some exParent } ∧
    ClientResponse.Code { code := 65940, message := "" } = 65940 ∧
    started ((exT (exOnce 65940)).trail exName exOp exState) = [1] ∧
    tagsOf 1 "http.status_code" ((exT (exOnce 65940)).trail exName exOp exState)
      = [TagValue.uint16 404] ∧
    ((404 : Nat) : Int) ≠ 65940 :=
  ⟨rfl, by decide, by decide, by decide, by decide⟩

/-- C7, amended: while the span variable holds a span, the reader `Submit`
installed sets the HTTP-status-code tag once, before it hands over to the
original reader, to the status code reduced modulo 65536; for every status code
from 0 to 65535 that is the status code itself. When the original reader makes
no tracing call, this is the only status-code tag recorded while the installed
reader runs. -/
theorem Reader_status_tag {σ : Type} (operationName : OperationView → String)
    (t : openTelemetryTransport) (op : ClientOperation σ) (st : World σ)
    (ctx : Context) (h : op.Context = some ctx)
    (response : ClientResponse) (consumer : Consumer) (now : World σ) (sp : Span)
    (hsp : now.spans st.calls = some sp) :
    (t.Submit operationName op st).1.2.Reader response consumer now
      = op.Reader response consumer
          { now with trace :=
              { events := now.trace.events ++
                  (Event.setTag sp.id "http.status_code"
                      (TagValue.uint16 (uint16 response.Code)) ::
                    (if response.Code ≥ 400
                      then [Event.setTag sp.id "error" (TagValue.bool true)] else [])),
                next := now.trace.next } } ∧
    ((uint16 response.Code : Nat) : Int) = response.Code % 65536 ∧
    (0 ≤ response.Code → response.Code < 65536 →
      ((uint16 response.Code : Nat) : Int) = response.Code) ∧
    (TracelessReader op.Reader →
      tagsOf sp.id "http.status_code" (TraceWorld.since now.trace
          ((t.Submit operationName op st).1.2.Reader response consumer now).2.trace)
        = [TagValue.uint16 (uint16 response.Code)]) := by
  have h1 : (t.Submit operationName op st).1.2.Reader response consumer now
      = op.Reader response consumer
          { now with trace :=
              { events := now.trace.events ++
                  (Event.setTag sp.id "http.status_code"
                      (TagValue.uint16 (uint16 response.Code)) ::
                    (if response.Code ≥ 400
                      then [Event.setTag sp.id "error" (TagValue.bool true)] else [])),
                next := now.trace.next } } := by
    rw [Submit_op operationName t op st ctx h]
    show Submit.Reader st.calls op.Reader response consumer now = _
    rw [Reader_eq, hsp]
    rfl
  refine ⟨h1, uint16_cast _, ?_, fun hR => ?_⟩
  · intro h0 hlt
    rw [uint16_cast, Int.emod_eq_of_lt h0 hlt]
  · rw [h1, hR, since_append now.trace _ _ rfl]
    by_cases hc : response.Code ≥ 400 <;> simp [tagsOf, hc]

theorem Reader_status_tag_witness :
    exOp.Context = some { span := some exParent } ∧
    ((Submit.enter exState).setSpan 0 (some ⟨1, exTracer⟩)).spans exState.calls
      = some ⟨1, exTracer⟩ ∧
    tagsOf 1 "http.status_code" (TraceWorld.since exWorld
        (((exT (exOnce 404)).Submit exName exOp exState).1.2.Reader
          { code := 404, message := "" } ⟨0⟩
          ((Submit.enter exState).setSpan 0 (some ⟨1, exTracer⟩))).2.trace)
      = [TagValue.uint16 404] ∧
    tagsOf 1 "http.status_code" ((exT (exOnce 404)).trail exName exOp exState)
      = [TagValue.uint16 404] :=
  ⟨rfl, rfl,
   ((Reader_status_tag exName (exT (exOnce 404)) exOp exState _ rfl
      { code := 404, message := "" } ⟨0⟩
      ((Submit.enter exState).setSpan 0 (some ⟨1, exTracer⟩)) ⟨1, exTracer⟩ rfl).2.2.2
        (userReader_traceless _)).trans (by decide),
   by decide⟩

/-- C8, as stated, fails in its last part: on an operation that already went
through `Submit` once, a second call whose inner transport only reads a
response creates no span and leaves its span variable empty, yet span
operations are performed: the reader left on the operation by the first call
tags the first call's span. -/
theorem empty_variable_counterexample :
    exSubmitted.1.Context = some { span := some exParent } ∧
    ((exT (exReadOnly 500)).inner exName exSubmitted.1 exSubmitted.2).2.spans
      exSubmitted.2.calls = none ∧
    started ((exT (exReadOnly 500)).trail exName exSubmitted.1 exSubmitted.2) = [] ∧
    (exT (exReadOnly 500)).trail exName exSubmitted.1 exSubmitted.2
      = [Event.setTag 1 "http.status_code" (TagValue.uint16 500),
         Event.setTag 1 "error" (TagValue.bool true)] :=
  ⟨rfl, rfl, by decide, by decide⟩

/-- C8, amended: on a non-nil Context, after the inner transport has returned:
with an error and a span in the span variable, `Submit` sets that span's error
tag to true, logs exactly that error on it and then ends it; with no error it
only ends the span; with an empty span variable `Submit` performs no span
operation after the inner call, the whole call was the inner transport run
against the operation's original hooks, and so no span operation is performed
at all when those hooks make no tracing call. For original hooks that start and
end no span, the span variable is empty exactly when no span was started. -/
theorem Submit_after_inner {σ : Type} (operationName : OperationView → String)
    (t : openTelemetryTransport) (op : ClientOperation σ) (st : World σ)
    (ctx : Context) (h : op.Context = some ctx) :
    (∀ e sp, (t.inner operationName op st).1.2 = some e →
        (t.inner operationName op st).2.spans st.calls = some sp →
        (t.Submit operationName op st).2.trace =
          { events := (t.inner operationName op st).2.trace.events ++
              [Event.setTag sp.id "error" (TagValue.bool true),
               Event.logFields sp.id [log.Error e], Event.finish sp.id],
            next := (t.inner operationName op st).2.trace.next }) ∧
    (∀ sp, (t.inner operationName op st).1.2 = none →
        (t.inner operationName op st).2.spans st.calls = some sp →
        (t.Submit operationName op st).2.trace =
          { events := (t.inner operationName op st).2.trace.events ++ [Event.finish sp.id],
            next := (t.inner operationName op st).2.trace.next }) ∧
    ((t.inner operationName op st).2.spans st.calls = none →
      (t.Submit operationName op st).2 = (t.inner operationName op st).2) ∧
    (KeepsWriter st.calls op.Params → KeepsReader st.calls op.Reader →
      (t.inner operationName op st).2.spans st.calls = none →
        (t.Submit operationName op st).1.1 = (t.transport.Submit op (Submit.enter st)).1 ∧
        (t.Submit operationName op st).2 = (t.transport.Submit op (Submit.enter st)).2) ∧
    (KeepsWriter st.calls op.Params → KeepsReader st.calls op.Reader →
      TracelessWriter op.Params → TracelessReader op.Reader →
      (t.inner operationName op st).2.spans st.calls = none →
        (t.Submit operationName op st).2.trace = st.trace) ∧
    (QuietWriter st.calls op.Params → QuietReader st.calls op.Reader →
      ((t.inner operationName op st).2.spans st.calls = none ↔
        started (TraceWorld.since st.trace (t.inner operationName op st).2.trace) = [])) := by
  have hS := Submit_some operationName t op st ctx h
  have key : KeepsWriter st.calls op.Params → KeepsReader st.calls op.Reader →
      (t.inner operationName op st).2.spans st.calls = none →
        (t.Submit operationName op st).1.1 = (t.transport.Submit op (Submit.enter st)).1 ∧
        (t.Submit operationName op st).2 = (t.transport.Submit op (Submit.enter st)).2 := by
    intro hW hR hn
    have hi := inner_transparent operationName t op st hW hR (Or.inr hn)
    refine ⟨?_, ?_⟩
    · rw [hS, hi]
    · rw [Submit_world_of_empty operationName t op st ctx h hn, hi]
  refine ⟨?_, ?_, ?_, key, ?_, ?_⟩
  · intro e sp he hsp
    rw [hS]
    simp only [he, hsp, closingEvents, log.Error, List.cons_append, List.nil_append]
  · intro sp he hsp
    rw [hS]
    simp only [he, hsp, closingEvents, List.nil_append]
  · intro hn
    exact Submit_world_of_empty operationName t op st ctx h hn
  · intro hW hR tW tR hn
    rw [(key hW hR hn).2]
    exact run_traceless op.Params op.Reader tW tR (t.transport.plan op.view) (Submit.enter st)
  · intro hW hR
    cases hp : opentracing.SpanFromContext op.Context with
    | none =>
        obtain ⟨new, h1, h2, _, h4⟩ := inner_without_parent operationName t op st hp hW hR
        rw [since_append _ _ _ h1, h2]
        exact ⟨fun _ => rfl, fun _ => h4⟩
    | some p =>
        obtain ⟨new, h1, _, h4, h5, h6⟩ := inner_with_parent operationName t op st p hp hW hR
        rw [since_append _ _ _ h1, h4]
        rcases Nat.eq_zero_or_pos (t.writerCalls operationName op st) with hz | hpos
        · rw [hz, h5 hz]; simp
        · rw [h6 hpos]
          constructor
          · intro hc; exact absurd hc (by simp)
          · intro hc
            have := congrArg List.length hc
            simp at this
            omega

theorem Submit_after_inner_witness :
    exOp.Context = some { span := some exParent } ∧
    ((exT exFail).inner exName exOp exState).1.2 = some { msg := "connection refused" } ∧
    ((exT exFail).inner exName exOp exState).2.spans exState.calls = some ⟨1, exTracer⟩ ∧
    ((exT exFail).Submit exName exOp exState).2.trace =
      { events := ((exT exFail).inner exName exOp exState).2.trace.events ++
          [Event.setTag 1 "error" (TagValue.bool true),
           Event.logFields 1 [log.Error { msg := "connection refused" }], Event.finish 1],
        next := ((exT exFail).inner exName exOp exState).2.trace.next } ∧
    (((exT (exReadOnly 200)).inner exName exOp exState).2.spans exState.calls = none ∧
      ((exT (exReadOnly 200)).Submit exName exOp exState).2.trace = exState.trace) :=
  ⟨rfl, by decide, rfl,
    (Submit_after_inner exName (exT exFail) exOp exState _ rfl).1
      { msg := "connection refused" } ⟨1, exTracer⟩ (by decide) rfl,
    rfl,
    (Submit_after_inner exName (exT (exReadOnly 200)) exOp exState _ rfl).2.2.2.2.1
      (userWriter_keeps _ _) (userReader_keeps _ _) (userWriter_traceless _)
      (userReader_traceless _) rfl⟩

/-- C4, as stated, fails in two ways. Against an inner transport that invokes
the parameter-writer twice, `Submit` starts the spans 1 and 2 and never calls
`End` on span 1. And on an operation that already went through `Submit` once,
one invocation of the writer starts the spans 2 and 3, because the writer the
first call left on the operation creates a span too; span 3 is never ended. -/
theorem span_end_counterexample :
    (exOp.Context = some { span := some exParent } ∧
      started ((exT exTwice).trail exName exOp exState) = [1, 2] ∧
      endCount 1 ((exT exTwice).trail exName exOp exState) = 0) ∧
    (exSubmitted.1.Context = some { span := some exParent } ∧
      (exT (exOnce 200)).writerCalls exName exSubmitted.1 exSubmitted.2 = 1 ∧
      started ((exT (exOnce 200)).trail exName exSubmitted.1 exSubmitted.2) = [2, 3] ∧
      endCount 3 ((exT (exOnce 200)).trail exName exSubmitted.1 exSubmitted.2) = 0) :=
  ⟨⟨rfl, by decide, by decide⟩, ⟨rfl, by decide, by decide, by decide⟩⟩

/-- C4, amended: on a non-nil Context, for an operation whose own
parameter-writer and response-reader start and end no span, and against every
inner transport that invokes the parameter-writer at most once during the call,
the spans ended by the time `Submit` returns are exactly the spans started, so
every span created has `End` called on it exactly once, whatever the inner
transport returns. -/
theorem Submit_ends_every_span {σ : Type} (operationName : OperationView → String)
    (t : openTelemetryTransport) (op : ClientOperation σ) (st : World σ)
    (ctx : Context) (h : op.Context = some ctx)
    (hW : QuietWriter st.calls op.Params) (hR : QuietReader st.calls op.Reader)
    (hn : t.writerCalls operationName op st ≤ 1) :
    ended (t.trail operationName op st) = started (t.trail operationName op st) ∧
    ∀ id ∈ started (t.trail operationName op st),
      endCount id (t.trail operationName op st) = 1 := by
  cases hp : opentracing.SpanFromContext op.Context with
  | none =>
      obtain ⟨h1, h2⟩ := trail_without_parent operationName t op st ctx h hp hW hR
      unfold endCount
      rw [h1, h2]
      simp
  | some p =>
      obtain ⟨h1, h2⟩ := trail_with_parent operationName t op st ctx h p hp hW hR
      unfold endCount
      rw [h1, h2]
      rcases Nat.le_one_iff_eq_zero_or_eq_one.mp hn with hz | ho
      · rw [hz]; simp
      · rw [ho]; simp

theorem Submit_ends_every_span_witness :
    exOp.Context = some { span := some exParent } ∧
    (exT (exOnce 404)).writerCalls exName exOp exState ≤ 1 ∧
    started ((exT (exOnce 404)).trail exName exOp exState) = [1] ∧
    (ended ((exT (exOnce 404)).trail exName exOp exState)
        = started ((exT (exOnce 404)).trail exName exOp exState) ∧
      ∀ id ∈ started ((exT (exOnce 404)).trail exName exOp exState),
        endCount id ((exT (exOnce 404)).trail exName exOp exState) = 1) :=
  ⟨rfl, by decide, by decide,
    Submit_ends_every_span exName (exT (exOnce 404)) exOp exState _ rfl
      (userWriter_quiet _ _) (userReader_quiet _ _) (by decide)⟩

/-- C5, as stated, fails in two ways. Against an inner transport that invokes
the parameter-writer twice, one call of `Submit` starts two spans. And on an
operation that already went through `Submit` once, a single invocation of the
writer starts two spans. -/
theorem span_count_counterexample :
    (exOp.Context = some { span := some exParent } ∧
      (exT exTwice).writerCalls exName exOp exState = 2 ∧
      (started ((exT exTwice).trail exName exOp exState)).length = 2) ∧
    (exSubmitted.1.Context = some { span := some exParent } ∧
      (exT (exOnce 200)).writerCalls exName exSubmitted.1 exSubmitted.2 = 1 ∧
      (started ((exT (exOnce 200)).trail exName exSubmitted.1 exSubmitted.2)).length = 2) :=
  ⟨⟨rfl, by decide, by decide⟩, ⟨rfl, by decide, by decide⟩⟩

/-- C5, amended: on a non-nil Context, for an operation whose own
parameter-writer and response-reader start and end no span, one call of
`Submit` starts one span per invocation of the parameter-writer when the
context carries a parent span and none otherwise; so at most one span is
created when the inner transport invokes the writer at most once; and as long
as the writer has not been invoked the span variable is empty. -/
theorem spans_per_Submit {σ : Type} (operationName : OperationView → String)
    (t : openTelemetryTransport) (op : ClientOperation σ) (st : World σ)
    (ctx : Context) (h : op.Context = some ctx)
    (hW : QuietWriter st.calls op.Params) (hR : QuietReader st.calls op.Reader) :
    (started (t.trail operationName op st)).length
        = (if (opentracing.SpanFromContext op.Context).isSome
            then t.writerCalls operationName op st else 0) ∧
    (t.writerCalls operationName op st ≤ 1 →
      (started (t.trail operationName op st)).length ≤ 1) ∧
    (t.writerCalls operationName op st = 0 →
      (t.inner operationName op st).2.spans st.calls = none) := by
  cases hp : opentracing.SpanFromContext op.Context with
  | none =>
      obtain ⟨h1, _⟩ := trail_without_parent operationName t op st ctx h hp hW hR
      obtain ⟨_, _, _, _, h4⟩ := inner_without_parent operationName t op st hp hW hR
      rw [h1]
      exact ⟨rfl, fun _ => Nat.zero_le _, fun _ => h4⟩
  | some p =>
      obtain ⟨h1, _⟩ := trail_with_parent operationName t op st ctx h p hp hW hR
      obtain ⟨_, _, _, _, h5, _⟩ := inner_with_parent operationName t op st p hp hW hR
      rw [h1]
      refine ⟨by simp, fun hn => by simpa using hn, h5⟩

theorem spans_per_Submit_witness :
    exOp.Context = some { span := some exParent } ∧
    ((started ((exT (exOnce 200)).trail exName exOp exState)).length
        = (if (opentracing.SpanFromContext exOp.Context).isSome
            then (exT (exOnce 200)).writerCalls exName exOp exState else 0) ∧
      ((exT (exOnce 200)).writerCalls exName exOp exState ≤ 1 →
        (started ((exT (exOnce 200)).trail exName exOp exState)).length ≤ 1) ∧
      ((exT (exOnce 200)).writerCalls exName exOp exState = 0 →
        ((exT (exOnce 200)).inner exName exOp exState).2.spans exState.calls = none)) ∧
    (exT (exReadOnly 200)).writerCalls exName exOp exState = 0 ∧
    ((exT (exReadOnly 200)).inner exName exOp exState).2.spans exState.calls = none :=
  ⟨rfl,
    spans_per_Submit exName (exT (exOnce 200)) exOp exState _ rfl
      (userWriter_quiet _ _) (userReader_quiet _ _),
    by decide,
    (spans_per_Submit exName (exT (exReadOnly 200)) exOp exState _ rfl
      (userWriter_quiet _ _) (userReader_quiet _ _)).2.2 (by decide)⟩

/-- C9, on the code: when the operation's context is non-nil and carries no
span, `trace.SpanFromContext` returns the no-op span, not nil, so the branch of
`createOpenTelemetryClientSpan` is taken: a span is started on the no-op span's
tracer, tagged, injected and returned, where the claim has no span returned and
no span started. The final `return nil` is never reached. The span creation
`Submit` calls, by contrast, returns no span and makes no tracing call. -/
theorem createSpan_without_parent_starts_span {σ : Type}
    (operationName : OperationView → String)
    (op : ClientOperation σ) (header : Header) (host : String) (opts : List StartSpanOption)
    (w : TraceWorld) (ctx : Context) (h : op.Context = some ctx) (hs : ctx.span = none) :
    createOpenTelemetryClientSpan operationName op header host opts w =
      (some ⟨w.next, trace.noopTracer⟩, header,
       { events := w.events ++
          [ Event.start none trace.noopTracer.name (operationName op.view)
              (opts ++ [ext.SpanKindRPCClient]) w.next,
            Event.setTag w.next "component" (TagValue.str "go-openapi"),
            Event.setTag w.next "peer.hostname" (TagValue.str host),
            Event.setTag w.next "http.path" (TagValue.str op.PathPattern),
            Event.setTag w.next "http.method" (TagValue.str op.Method),
            Event.inject trace.noopTracer.name ⟨w.next⟩ BuiltinFormat.HTTPHeaders header ],
         next := w.next + 1 }) ∧
    (createOpenTelemetryClientSpan operationName op header host opts w).1 ≠ none ∧
    started (TraceWorld.since w
        (createOpenTelemetryClientSpan operationName op header host opts w).2.2) = [w.next] ∧
    createClientSpan operationName op header host opts w = (none, header, w) := by
  have hc : createOpenTelemetryClientSpan operationName op header host opts w =
      (some ⟨w.next, trace.noopTracer⟩, header,
       { events := w.events ++
          [ Event.start none trace.noopTracer.name (operationName op.view)
              (opts ++ [ext.SpanKindRPCClient]) w.next,
            Event.setTag w.next "component" (TagValue.str "go-openapi"),
            Event.setTag w.next "peer.hostname" (TagValue.str host),
            Event.setTag w.next "http.path" (TagValue.str op.PathPattern),
            Event.setTag w.next "http.method" (TagValue.str op.Method),
            Event.inject trace.noopTracer.name ⟨w.next⟩ BuiltinFormat.HTTPHeaders header ],
         next := w.next + 1 }) := by
    simp [createOpenTelemetryClientSpan, h, hs, trace.SpanFromContext,
      opentracing.SpanFromContext, trace.noopSpan, trace.noopTracer,
      StartSpanFromContextWithTracer, Span.SetTag, Tracer.inject, TraceWorld.emit,
      Span.Tracer, Span.Context, ext.Component.Set, ext.PeerHostname.Set, ext.HTTPMethod.Set]
  refine ⟨hc, ?_, ?_, ?_⟩
  · rw [hc]; simp
  · rw [hc, since_append w _ _ rfl]; rfl
  · exact createClientSpan_none operationName op header host opts w
      (by simp [opentracing.SpanFromContext, h, hs])

theorem createSpan_without_parent_starts_span_witness :
    exOpBare.Context = some { span := none } ∧
    (createOpenTelemetryClientSpan exName exOpBare [("Accept", ["text/plain"])]
        "example.org" [] exWorld).2 =
      ([("Accept", ["text/plain"])],
       { events :=
          [ Event.start none 0 "getWidget" [StartSpanOption.Tag "span.kind" "client"] 1,
            Event.setTag 1 "component" (TagValue.str "go-openapi"),
            Event.setTag 1 "peer.hostname" (TagValue.str "example.org"),
            Event.setTag 1 "http.path" (TagValue.str "/widgets/{id}"),
            Event.setTag 1 "http.method" (TagValue.str "GET"),
            Event.inject 0 ⟨1⟩ BuiltinFormat.HTTPHeaders [("Accept", ["text/plain"])] ],
         next := 2 }) ∧
    (createOpenTelemetryClientSpan exName exOpBare [("Accept", ["text/plain"])]
        "example.org" [] exWorld).1 ≠ none :=
  ⟨rfl,
   congrArg Prod.snd (createSpan_without_parent_starts_span exName exOpBare
    [("Accept", ["text/plain"])] "example.org" [] exWorld _ rfl rfl).1,
   (createSpan_without_parent_starts_span exName exOpBare
    [("Accept", ["text/plain"])] "example.org" [] exWorld _ rfl rfl).2.1⟩

/-- C10: when the operation's context carries the parent span `p`, span creation
starts exactly one span, on the tracer of `p`, named by `operationName`, with
the configured options in order followed by the RPC-client-kind marker; it tags
the new span with component, peer hostname, path pattern and method; it injects
the new span's context into the header collection in the HTTP-headers format;
and it returns the new span, which is not the parent when the parent was
allocated earlier. -/
theorem createSpan_with_parent {σ : Type} (operationName : OperationView → String)
    (op : ClientOperation σ) (header : Header) (host : String) (opts : List StartSpanOption)
    (w : TraceWorld) (p : Span) (hp : opentracing.SpanFromContext op.Context = some p) :
    createOpenTelemetryClientSpan operationName op header host opts w =
      (some ⟨w.next, p.Tracer⟩,
       p.Tracer.Inject ⟨w.next⟩ BuiltinFormat.HTTPHeaders header,
       { events := w.events ++
          [ Event.start (some p.id) p.Tracer.name (operationName op.view)
              (opts ++ [ext.SpanKindRPCClient]) w.next,
            Event.setTag w.next "component" (TagValue.str "go-openapi"),
            Event.setTag w.next "peer.hostname" (TagValue.str host),
            Event.setTag w.next "http.path" (TagValue.str op.PathPattern),
            Event.setTag w.next "http.method" (TagValue.str op.Method),
            Event.inject p.Tracer.name ⟨w.next⟩ BuiltinFormat.HTTPHeaders header ],
         next := w.next + 1 }) ∧
    started (TraceWorld.since w
        (createOpenTelemetryClientSpan operationName op header host opts w).2.2) = [w.next] ∧
    (opts ++ [ext.SpanKindRPCClient]).getLast? = some ext.SpanKindRPCClient ∧
    (p.id < w.next → ∀ sp,
      (createOpenTelemetryClientSpan operationName op header host opts w).1 = some sp →
      sp.id ≠ p.id) := by
  have hl : trace.SpanFromContext op.Context = some p := by
    cases hctx : op.Context with
    | none => rw [hctx] at hp; simp [opentracing.SpanFromContext] at hp
    | some c =>
        rw [hctx] at hp
        simp only [opentracing.SpanFromContext] at hp
        simp [trace.SpanFromContext, hp]
  have hc : createOpenTelemetryClientSpan operationName op header host opts w =
      (some ⟨w.next, p.Tracer⟩,
       p.Tracer.Inject ⟨w.next⟩ BuiltinFormat.HTTPHeaders header,
       { events := w.events ++
          [ Event.start (some p.id) p.Tracer.name (operationName op.view)
              (opts ++ [ext.SpanKindRPCClient]) w.next,
            Event.setTag w.next "component" (TagValue.str "go-openapi"),
            Event.setTag w.next "peer.hostname" (TagValue.str host),
            Event.setTag w.next "http.path" (TagValue.str op.PathPattern),
            Event.setTag w.next "http.method" (TagValue.str op.Method),
            Event.inject p.Tracer.name ⟨w.next⟩ BuiltinFormat.HTTPHeaders header ],
         next := w.next + 1 }) := by
    simp [createOpenTelemetryClientSpan, hl, hp, StartSpanFromContextWithTracer, Span.SetTag,
      Tracer.inject, TraceWorld.emit, Span.Tracer, Span.Context, ext.Component.Set,
      ext.PeerHostname.Set, ext.HTTPMethod.Set]
  refine ⟨hc, ?_, by simp, ?_⟩
  · rw [hc]
    rw [since_append w _ _ rfl]
    rfl
  · intro hlt sp hsp
    rw [hc] at hsp
    simp only [Option.some.injEq] at hsp
    rw [← hsp]
    exact Nat.ne_of_gt hlt

theorem createSpan_with_parent_witness :
    opentracing.SpanFromContext exOp.Context = some exParent ∧
    (createOpenTelemetryClientSpan exName exOp [] "example.org"
        [StartSpanOption.StartTime 5] exWorld).2 =
      ([("span-id", ["i"])],
       { events :=
          [ Event.start (some 0) 7 "getWidget"
              [StartSpanOption.StartTime 5, StartSpanOption.Tag "span.kind" "client"] 1,
            Event.setTag 1 "component" (TagValue.str "go-openapi"),
            Event.setTag 1 "peer.hostname" (TagValue.str "example.org"),
            Event.setTag 1 "http.path" (TagValue.str "/widgets/{id}"),
            Event.setTag 1 "http.method" (TagValue.str "GET"),
            Event.inject 7 ⟨1⟩ BuiltinFormat.HTTPHeaders [] ],
         next := 2 }) :=
  ⟨rfl, congrArg Prod.snd (createSpan_with_parent exName exOp [] "example.org"
    [StartSpanOption.StartTime 5] exWorld exParent rfl).1⟩

end Client
